import Mathlib

/-!
# StrictDB — verification of the filter/update translation engine and pipeline

Shallow embedding of the StrictDB source (TypeScript) in Lean 4.

The embedding models JavaScript runtime values as `JsValue`, JavaScript
objects as ordered association lists (mirroring `Object.entries` insertion
order), and exceptions as `Except`.  Each definition is translated directly
from the corresponding function in the repository source:

* `src/filter-translator.ts` — `translateToSQL`, `translateOperatorToSQL`,
  `translateRegexToSQL`, `regexToLike`, `quoteIdentifier`, `placeholder`,
  `translateSortToSQL`, `translateProjectionToSQL`, `translateUpdateToSQL`,
  `buildSelectSQL`, `buildMssqlSelectSQL`, `translateToElastic`,
  `translateFieldOpsToElastic`
* `src/guardrails.ts` — `checkGuardrails`
* `src/errors.ts` — `StrictDBError`, `ERROR_RETRYABLE`, `mapMongoError`,
  `mapSqlError`, `mapElasticError`
* `src/strictdb.ts` — `detectBackend`, `StrictDB.batch`
* `src/sanitize.ts` — `applySanitizeRules`
* `src/adapters/sql-adapter.ts` — the receipt computed by `updateOne`
-/

namespace StrictDB

/-! ## JavaScript value model -/

/-- A JavaScript runtime value as it can appear in a StrictDB filter,
update or document.  Objects and arrays carry their entries in insertion
order, mirroring the order `Object.entries` enumerates them. -/
inductive JsValue where
  | vNull
  | vUndef
  | vBool (b : Bool)
  | vInt (n : Int)
  | vStr (s : String)
  | vDate (ms : Int)
  | vRegExp (source : String)
  | vArr (elems : List JsValue)
  | vObj (fields : List (String × JsValue))
deriving Repr

open JsValue

/-- JavaScript truthiness (`!filter` and `value ? … : …` in the source). -/
def jsTruthy : JsValue → Bool
  | vNull => false
  | vUndef => false
  | vBool b => b
  | vInt n => n != 0
  | vStr s => s ≠ ""
  | vDate _ => true
  | vRegExp _ => true
  | vArr _ => true
  | vObj _ => true

/-- JavaScript `String(v)`.  Only the `$regex` branch of the translator
applies this, and only the string/number cases are ever exercised by the
properties below; the `vDate` rendering abbreviates the engine-defined
`Date.prototype.toString` text, which no claim depends on. -/
def jsToString : JsValue → String
  | vNull => "null"
  | vUndef => "undefined"
  | vBool b => if b then "true" else "false"
  | vInt n => toString n
  | vStr s => s
  | vDate ms => "[Date " ++ toString ms ++ "]"
  | vRegExp src => "/" ++ src ++ "/"
  | vArr xs => String.intercalate "," (xs.map fun x =>
      match x with
      | vNull => ""
      | vUndef => ""
      | vStr s => s
      | vInt n => toString n
      | vBool b => if b then "true" else "false"
      | _ => "")
  | vObj _ => "[object Object]"

/-! ## Error model (`src/errors.ts`) -/

inductive Backend where
  | mongo | sql | elastic
deriving Repr, DecidableEq

/-- The fixed error-code enumeration from `types.ts`. -/
inductive StrictErrorCode where
  | CONNECTION_FAILED
  | CONNECTION_LOST
  | AUTHENTICATION_FAILED
  | TIMEOUT
  | POOL_EXHAUSTED
  | DUPLICATE_KEY
  | VALIDATION_ERROR
  | COLLECTION_NOT_FOUND
  | QUERY_ERROR
  | GUARDRAIL_BLOCKED
  | UNKNOWN_OPERATOR
  | SCHEMA_MISMATCH
  | UNSUPPORTED_OPERATION
  | INTERNAL_ERROR
deriving Repr, DecidableEq

/-- `StrictDBError` as constructed by the `StrictDBError` class.
`message` holds the raw message passed to the constructor (the JS `Error`
message is `message ++ " Fix: " ++ fix`); the impure `timestamp` and the
opaque `originalError` are omitted.  The constructor defaults
`retryable` to `false` (`opts.retryable ?? false`). -/
structure StrictDBError where
  code : StrictErrorCode
  message : String
  fix : String
  backend : Backend
  collection : Option String := none
  operation : Option String := none
  retryable : Bool := false
deriving Repr, DecidableEq

/-- `ERROR_RETRYABLE` table from `src/errors.ts`. -/
def ERROR_RETRYABLE : StrictErrorCode → Bool
  | .CONNECTION_FAILED => true
  | .CONNECTION_LOST => true
  | .AUTHENTICATION_FAILED => false
  | .TIMEOUT => true
  | .POOL_EXHAUSTED => true
  | .DUPLICATE_KEY => false
  | .VALIDATION_ERROR => false
  | .COLLECTION_NOT_FOUND => false
  | .QUERY_ERROR => false
  | .GUARDRAIL_BLOCKED => false
  | .UNKNOWN_OPERATOR => false
  | .SCHEMA_MISMATCH => false
  | .UNSUPPORTED_OPERATION => false
  | .INTERNAL_ERROR => false

/-- Exceptions the translator can raise: a `StrictDBError` throw, or a
native `TypeError` (e.g. `Object.entries(null)` inside `$not`). -/
inductive JsThrow where
  | strict (e : StrictDBError)
  | typeError
deriving Repr, DecidableEq

/-! ## SQL filter translation (`src/filter-translator.ts`) -/

inductive SqlDialect where
  | pg | mysql2 | mssql | sqlite
deriving Repr, DecidableEq

structure SqlTranslation where
  clause : String
  values : List JsValue
deriving Repr

/-- `value === null`. -/
def isNull : JsValue → Bool
  | vNull => true
  | _ => false

/-- `Array.isArray(v)` with the element list when it holds. -/
def asArray : JsValue → Option (List JsValue)
  | vArr xs => some xs
  | _ => none

/-- `key.startsWith('$')`, expressed on the character list so that it
computes definitionally. -/
def startsWithDollar (s : String) : Bool :=
  s.data.head? = some '$'

/-- `placeholder(dialect, idx)`. -/
def placeholder (dialect : SqlDialect) (idx : Nat) : String :=
  match dialect with
  | .pg => "$" ++ Nat.repr idx
  | .mysql2 => "?"
  | .mssql => "@p" ++ Nat.repr idx
  | .sqlite => "?"

/-- `quoteIdentifier(name)`: double-quote, doubling internal `"`. -/
def quoteIdentifier (name : String) : String :=
  "\"" ++ String.mk (name.data.flatMap fun c => if c = '"' then ['"', '"'] else [c]) ++ "\""

/-- `likePattern.replace(/[%_]/g, ch => `\x5c${ch}`)`. -/
def escapeLikeChars (cs : List Char) : List Char :=
  cs.flatMap fun c => if c = '%' ∨ c = '_' then ['\\', c] else [c]

/-- `.replace(/\.\*/g, '%')` — left-to-right, non-overlapping. -/
def replaceDotStar : List Char → List Char
  | '.' :: '*' :: rest => '%' :: replaceDotStar rest
  | c :: rest => c :: replaceDotStar rest
  | [] => []

/-- `regexToLike(quotedKey, pattern, dialect, paramIdx)`. -/
def regexToLike (quotedKey : String) (pattern : String) (dialect : SqlDialect)
    (paramIdx : Nat) : SqlTranslation :=
  let escaped := escapeLikeChars pattern.data
  let startsWithAnchor := escaped.head? = some '^'
  let endsWithAnchor := escaped.getLast? = some '$'
  let s1 := if startsWithAnchor then escaped.drop 1 else escaped
  let s2 := if endsWithAnchor then s1.dropLast else s1
  let s3 := (replaceDotStar s2).map fun c => if c = '.' then '_' else c
  let s4 := if startsWithAnchor then s3 else '%' :: s3
  let s5 := if endsWithAnchor then s4 else s4 ++ ['%']
  { clause := quotedKey ++ " LIKE " ++ placeholder dialect paramIdx
    values := [vStr (String.mk s5)] }

/-- `translateRegexToSQL(quotedKey, pattern, dialect, paramIdx)`. -/
def translateRegexToSQL (quotedKey : String) (pattern : String)
    (dialect : SqlDialect) (paramIdx : Nat) : SqlTranslation :=
  match dialect with
  | .pg => { clause := quotedKey ++ " ~ " ++ placeholder dialect paramIdx
             values := [vStr pattern] }
  | .mysql2 => { clause := quotedKey ++ " REGEXP " ++ placeholder dialect paramIdx
                 values := [vStr pattern] }
  | .mssql => regexToLike quotedKey pattern dialect paramIdx
  | .sqlite => regexToLike quotedKey pattern dialect paramIdx

/-- The `UNKNOWN_OPERATOR` error thrown by `translateOperatorToSQL`'s
`default` branch. -/
def unknownFilterOperatorError (op : String) (backend : Backend) : StrictDBError :=
  { code := .UNKNOWN_OPERATOR
    message := "Unknown filter operator \"" ++ op ++ "\"."
    fix := "Supported operators: $eq, $ne, $gt, $gte, $lt, $lte, $in, $nin, $exists, $regex, $not, $size."
    backend := backend }

/-- The `UNKNOWN_OPERATOR` error thrown for a stray top-level `$`-key. -/
def topLevelOperatorError (key : String) (backend : Backend) : StrictDBError :=
  { code := .UNKNOWN_OPERATOR
    message := "Top-level operator \"" ++ key ++ "\" is not supported in filter."
    fix := "Supported top-level operators: $and, $or, $nor. Field operators ($gt, $lt, etc.) must be nested inside a field: \x7b fieldName: \x7b " ++ key ++ ": value \x7d \x7d."
    backend := backend }

/-- JavaScript `parts.join(sep)`. -/
def joinSep (sep : String) : List String → String
  | [] => ""
  | [x] => x
  | x :: xs => x ++ sep ++ joinSep sep xs

/-- Join accumulated parts exactly as `parts.join(' AND ')` followed by the
final `parts.length > 0 ? … : '1=1'` step of `translateToSQL`. -/
def joinParts (pv : List String × List JsValue) : SqlTranslation :=
  { clause := if pv.1 ≠ [] then joinSep " AND " pv.1 else "1=1"
    values := pv.2 }

/-- The case labels of the `switch (op)` in `translateOperatorToSQL`. -/
inductive SqlOpKind where
  | opEq | opNe | opGt | opGte | opLt | opLte | opIn | opNin
  | opExists | opRegex | opOptions | opNot | opSize | opUnknown
deriving Repr, DecidableEq

/-- Which `switch` case a filter-operator key selects. -/
def parseSqlOp (op : String) : SqlOpKind :=
  if op = "$eq" then .opEq
  else if op = "$ne" then .opNe
  else if op = "$gt" then .opGt
  else if op = "$gte" then .opGte
  else if op = "$lt" then .opLt
  else if op = "$lte" then .opLte
  else if op = "$in" then .opIn
  else if op = "$nin" then .opNin
  else if op = "$exists" then .opExists
  else if op = "$regex" then .opRegex
  else if op = "$options" then .opOptions
  else if op = "$not" then .opNot
  else if op = "$size" then .opSize
  else .opUnknown

/-- The direct-equality entries of a non-empty string filter
(`Object.entries("ab") = [['0','a'],['1','b']]`): each entry is a
digit-keyed single-character string. -/
def stringEntriesSQL (i : Nat) (cs : List Char) (dialect : SqlDialect)
    (paramIdx : Nat) : List String × List JsValue :=
  match cs with
  | [] => ([], [])
  | c :: rest =>
      let (ps, vs) := stringEntriesSQL (i + 1) rest dialect (paramIdx + 1)
      ((quoteIdentifier (toString i) ++ " = " ++ placeholder dialect paramIdx) :: ps,
       .vStr (String.mk [c]) :: vs)

mutual

/-- `translateToSQL(filter, dialect, startIdx)`.

`!filter || Object.keys(filter).length === 0` returns `1=1`.  Truthy
non-objects have no own enumerable entries (so the loop body never runs)
except strings, whose entries are index-keyed single-character strings:
index keys are decimal digits, hence never logical and never
`$`-prefixed, and each single-character value takes the direct-equality
branch; `stringEntriesSQL` spells that out. -/
def translateToSQL (filter : JsValue) (dialect : SqlDialect) (startIdx : Nat) :
    Except JsThrow SqlTranslation :=
  if ¬ jsTruthy filter then .ok { clause := "1=1", values := [] }
  else
    match filter with
    | .vObj [] => .ok { clause := "1=1", values := [] }
    | .vObj fs => do
        let pv ← translateEntries fs dialect startIdx
        .ok (joinParts pv)
    | .vArr [] => .ok { clause := "1=1", values := [] }
    | .vArr xs => do
        let pv ← translateArrEntries 0 xs dialect startIdx
        .ok (joinParts pv)
    | .vStr s => .ok (joinParts (stringEntriesSQL 0 s.data dialect startIdx))
    | _ => .ok { clause := "1=1", values := [] }
termination_by structural filter

/-- The `for (const [key, value] of Object.entries(filter))` loop of
`translateToSQL`, accumulating `parts` and `values` while threading
`paramIdx`. -/
def translateEntries (fs : List (String × JsValue)) (dialect : SqlDialect)
    (paramIdx : Nat) : Except JsThrow (List String × List JsValue) :=
  match fs with
  | [] => .ok ([], [])
  | (key, value) :: rest =>
    if key = "$and" ∨ key = "$or" ∨ key = "$nor" then
      match value with
      | .vArr [] => translateEntries rest dialect paramIdx
      | .vArr xs => do
          let (subClauses, vs) ← translateSubfilters xs dialect paramIdx
          let part :=
            if subClauses = [] then []
            else if key = "$nor" then
              ["NOT (" ++ joinSep " OR " subClauses ++ ")"]
            else
              ["(" ++ joinSep (if key = "$and" then " AND " else " OR ") subClauses ++ ")"]
          let (ps, vs2) ← translateEntries rest dialect (paramIdx + vs.length)
          .ok (part ++ ps, vs ++ vs2)
      | _ => translateEntries rest dialect paramIdx
    else if startsWithDollar key then
      .error (.strict (topLevelOperatorError key .sql))
    else
      let quotedKey := quoteIdentifier key
      match value with
      | .vNull => do
          let (ps, vs) ← translateEntries rest dialect paramIdx
          .ok ((quotedKey ++ " IS NULL") :: ps, vs)
      | .vUndef => do
          let (ps, vs) ← translateEntries rest dialect paramIdx
          .ok ((quotedKey ++ " IS NULL") :: ps, vs)
      | .vObj ops => do
          let (bagParts, bagVals) ← translateBag quotedKey ops dialect paramIdx
          let (ps, vs) ← translateEntries rest dialect (paramIdx + bagVals.length)
          .ok (bagParts ++ ps, bagVals ++ vs)
      | _ => do
          let (ps, vs) ← translateEntries rest dialect (paramIdx + 1)
          .ok ((quotedKey ++ " = " ++ placeholder dialect paramIdx) :: ps, value :: vs)
termination_by structural fs

/-- The same entry loop on an array filter: `Object.entries` of an array
yields `[String(i), elem]` pairs; a digit key is never logical and never
starts with `$`. -/
def translateArrEntries (i : Nat) (xs : List JsValue) (dialect : SqlDialect)
    (paramIdx : Nat) : Except JsThrow (List String × List JsValue) :=
  match xs with
  | [] => .ok ([], [])
  | value :: rest =>
    let quotedKey := quoteIdentifier (toString i)
    match value with
    | .vNull => do
        let (ps, vs) ← translateArrEntries (i + 1) rest dialect paramIdx
        .ok ((quotedKey ++ " IS NULL") :: ps, vs)
    | .vUndef => do
        let (ps, vs) ← translateArrEntries (i + 1) rest dialect paramIdx
        .ok ((quotedKey ++ " IS NULL") :: ps, vs)
    | .vObj ops => do
        let (bagParts, bagVals) ← translateBag quotedKey ops dialect paramIdx
        let (ps, vs) ← translateArrEntries (i + 1) rest dialect (paramIdx + bagVals.length)
        .ok (bagParts ++ ps, bagVals ++ vs)
    | _ => do
        let (ps, vs) ← translateArrEntries (i + 1) rest dialect (paramIdx + 1)
        .ok ((quotedKey ++ " = " ++ placeholder dialect paramIdx) :: ps, value :: vs)
termination_by structural xs

/-- The `for (const subFilter of filters)` loop inside the logical-key
branch: sub-filters whose clause is empty or `1=1` are skipped without
consuming values or parameter indices. -/
def translateSubfilters (xs : List JsValue) (dialect : SqlDialect)
    (paramIdx : Nat) : Except JsThrow (List String × List JsValue) :=
  match xs with
  | [] => .ok ([], [])
  | x :: rest => do
      let sub ← translateToSQL x dialect paramIdx
      if sub.clause ≠ "" ∧ sub.clause ≠ "1=1" then do
        let (ss, vs) ← translateSubfilters rest dialect (paramIdx + sub.values.length)
        .ok (("(" ++ sub.clause ++ ")") :: ss, sub.values ++ vs)
      else
        translateSubfilters rest dialect paramIdx
termination_by structural xs

/-- The operator-bag loop of `translateToSQL`: every result clause is
pushed into `parts` unconditionally (even when empty, as for `$options`). -/
def translateBag (quotedKey : String) (ops : List (String × JsValue))
    (dialect : SqlDialect) (paramIdx : Nat) :
    Except JsThrow (List String × List JsValue) :=
  match ops with
  | [] => .ok ([], [])
  | (op, opVal) :: rest => do
      let r ← translateOpCase quotedKey (parseSqlOp op) op opVal dialect paramIdx
      let (ps, vs) ← translateBag quotedKey rest dialect (paramIdx + r.values.length)
      .ok (r.clause :: ps, r.values ++ vs)
termination_by structural ops

/-- The loop inside the `$not` case of `translateOperatorToSQL`: unlike the
bag loop it pushes a clause `if (result.clause)` only, and does not advance
the index for skipped (empty-clause) results. -/
def translateNotOps (quotedKey : String) (ops : List (String × JsValue))
    (dialect : SqlDialect) (paramIdx : Nat) :
    Except JsThrow (List String × List JsValue) :=
  match ops with
  | [] => .ok ([], [])
  | (op, opVal) :: rest => do
      let r ← translateOpCase quotedKey (parseSqlOp op) op opVal dialect paramIdx
      if r.clause ≠ "" then do
        let (ps, vs) ← translateNotOps quotedKey rest dialect (paramIdx + r.values.length)
        .ok (r.clause :: ps, r.values ++ vs)
      else
        translateNotOps quotedKey rest dialect paramIdx
termination_by structural ops

/-- The body of `translateOperatorToSQL(quotedKey, op, value, dialect,
paramIdx)`: the `switch (op)` dispatch is factored through `parseSqlOp`
(the case labels of the switch), passed here as `kind = parseSqlOp op`;
behaviour per label is unchanged, and `translateOperatorToSQL` below
re-assembles the original signature.

In the `$not` case the source runs `Object.entries(value)`: entries of an
object are its fields; entries of a non-empty array or string are
index-keyed, so the first sub-operator key is `"0"` and hits the `default`
(unknown-operator) branch; entries of numbers, booleans, dates and regexes
are empty (empty clause); `Object.entries(null/undefined)` throws a
`TypeError`. -/
def translateOpCase (quotedKey : String) (kind : SqlOpKind) (op : String)
    (value : JsValue) (dialect : SqlDialect) (paramIdx : Nat) :
    Except JsThrow SqlTranslation :=
  match kind with
  | .opEq =>
    if isNull value then .ok { clause := quotedKey ++ " IS NULL", values := [] }
    else .ok { clause := quotedKey ++ " = " ++ placeholder dialect paramIdx
               values := [value] }
  | .opNe =>
    if isNull value then .ok { clause := quotedKey ++ " IS NOT NULL", values := [] }
    else .ok { clause := quotedKey ++ " != " ++ placeholder dialect paramIdx
               values := [value] }
  | .opGt =>
    .ok { clause := quotedKey ++ " > " ++ placeholder dialect paramIdx, values := [value] }
  | .opGte =>
    .ok { clause := quotedKey ++ " >= " ++ placeholder dialect paramIdx, values := [value] }
  | .opLt =>
    .ok { clause := quotedKey ++ " < " ++ placeholder dialect paramIdx, values := [value] }
  | .opLte =>
    .ok { clause := quotedKey ++ " <= " ++ placeholder dialect paramIdx, values := [value] }
  | .opIn =>
    match asArray value with
    | some (a :: as) =>
        .ok { clause := quotedKey ++ " IN (" ++
                joinSep ", " ((List.range (a :: as).length).map fun i =>
                  placeholder dialect (paramIdx + i)) ++ ")"
              values := a :: as }
    | _ => .ok { clause := "1=0", values := [] }
  | .opNin =>
    match asArray value with
    | some (a :: as) =>
        .ok { clause := quotedKey ++ " NOT IN (" ++
                joinSep ", " ((List.range (a :: as).length).map fun i =>
                  placeholder dialect (paramIdx + i)) ++ ")"
              values := a :: as }
    | _ => .ok { clause := "1=1", values := [] }
  | .opExists =>
    if jsTruthy value then .ok { clause := quotedKey ++ " IS NOT NULL", values := [] }
    else .ok { clause := quotedKey ++ " IS NULL", values := [] }
  | .opRegex =>
    let pattern := match value with
      | .vRegExp src => src
      | v => jsToString v
    .ok (translateRegexToSQL quotedKey pattern dialect paramIdx)
  | .opOptions =>
    .ok { clause := "", values := [] }
  | .opNot =>
    match value with
    | .vObj sub => do
        let (parts, vals) ← translateNotOps quotedKey sub dialect paramIdx
        if parts = [] then .ok { clause := "", values := [] }
        else .ok { clause := "NOT (" ++ joinSep " AND " parts ++ ")"
                   values := vals }
    | .vNull => .error .typeError
    | .vUndef => .error .typeError
    | .vArr [] => .ok { clause := "", values := [] }
    | .vArr (_ :: _) => .error (.strict (unknownFilterOperatorError "0" .sql))
    | .vStr s =>
        if s = "" then .ok { clause := "", values := [] }
        else .error (.strict (unknownFilterOperatorError "0" .sql))
    | _ => .ok { clause := "", values := [] }
  | .opSize =>
    match dialect with
    | .pg => .ok { clause := "jsonb_array_length(" ++ quotedKey ++ ") = " ++
                     placeholder dialect paramIdx
                   values := [value] }
    | .mysql2 => .ok { clause := "JSON_LENGTH(" ++ quotedKey ++ ") = " ++
                         placeholder dialect paramIdx
                       values := [value] }
    | _ => .ok { clause := "json_array_length(" ++ quotedKey ++ ") = " ++
                   placeholder dialect paramIdx
                 values := [value] }
  | .opUnknown =>
    .error (.strict (unknownFilterOperatorError op .sql))
termination_by structural value

end

/-- `translateOperatorToSQL(quotedKey, op, value, dialect, paramIdx)`. -/
def translateOperatorToSQL (quotedKey : String) (op : String) (value : JsValue)
    (dialect : SqlDialect) (paramIdx : Nat) : Except JsThrow SqlTranslation :=
  translateOpCase quotedKey (parseSqlOp op) op value dialect paramIdx

/-! ## Placeholder-occurrence scanner

`sqlPlaceholderTokens` extracts, left to right, the placeholder tokens of a
clause string: `$N` (PostgreSQL) and `@pN` (MSSQL) yield the digit string
`N`, `?` (MySQL/SQLite) yields `"?"`.  Text inside double-quoted
identifiers is never a placeholder, so the scanner tracks quoting. -/

/-- Scanner state: are we inside a double-quoted identifier, and is a
placeholder token currently being read (`sawAt` = just read `@`,
`acc ds` = reading the digits of a numbered placeholder). -/
inductive PendTok where
  | none
  | sawAt
  | acc (ds : List Char)
deriving Repr, DecidableEq

structure ScanState where
  inQuote : Bool
  pend : PendTok
deriving Repr, DecidableEq

/-- Emit the pending token, if a completed one is being read. -/
def flushPend : PendTok → List String
  | .none => []
  | .sawAt => []
  | .acc ds => [String.mk ds]

/-- One scanner step. -/
def scanStep (d : SqlDialect) (σ : ScanState) (c : Char) : ScanState × List String :=
  if σ.inQuote then
    if c = '"' then (⟨false, .none⟩, []) else (⟨true, σ.pend⟩, [])
  else if c = '"' then (⟨true, .none⟩, flushPend σ.pend)
  else
    match d with
    | .pg =>
      if c = '$' then (⟨false, .acc []⟩, flushPend σ.pend)
      else
        match σ.pend with
        | .acc ds =>
            if c.isDigit then (⟨false, .acc (ds ++ [c])⟩, [])
            else (⟨false, .none⟩, flushPend (.acc ds))
        | p => (⟨false, .none⟩, flushPend p)
    | .mssql =>
      if c = '@' then (⟨false, .sawAt⟩, flushPend σ.pend)
      else
        match σ.pend with
        | .sawAt => if c = 'p' then (⟨false, .acc []⟩, []) else (⟨false, .none⟩, [])
        | .acc ds =>
            if c.isDigit then (⟨false, .acc (ds ++ [c])⟩, [])
            else (⟨false, .none⟩, flushPend (.acc ds))
        | .none => (⟨false, .none⟩, [])
    | _ =>
      if c = '?' then (⟨false, .none⟩, flushPend σ.pend ++ ["?"])
      else (⟨false, .none⟩, flushPend σ.pend)

def scanList (d : SqlDialect) (σ : ScanState) : List Char → ScanState × List String
  | [] => (σ, [])
  | c :: cs =>
      let r1 := scanStep d σ c
      let r2 := scanList d r1.1 cs
      (r2.1, r1.2 ++ r2.2)

/-- All placeholder tokens of a clause string, in order of occurrence. -/
def sqlPlaceholderTokens (d : SqlDialect) (s : String) : List String :=
  let r := scanList d ⟨false, .none⟩ s.data
  r.2 ++ flushPend r.1.pend

/-- The token list of `n` placeholders numbered densely from `k`. -/
def phTokens (d : SqlDialect) (k n : Nat) : List String :=
  match d with
  | .pg => (List.range' k n).map Nat.repr
  | .mssql => (List.range' k n).map Nat.repr
  | _ => List.replicate n "?"

/-- `s` scans (from a clean state) to exactly the placeholder tokens of
`n` placeholders numbered densely from `k`, and ends outside quotes. -/
def ClauseTok (d : SqlDialect) (k n : Nat) (s : String) : Prop :=
  (scanList d ⟨false, .none⟩ s.data).1.inQuote = false ∧
  (scanList d ⟨false, .none⟩ s.data).2
    ++ flushPend (scanList d ⟨false, .none⟩ s.data).1.pend = phTokens d k n

theorem ClauseTok.tokens {d k n s} (h : ClauseTok d k n s) :
    sqlPlaceholderTokens d s = phTokens d k n := h.2

theorem scanList_append (d : SqlDialect) (σ : ScanState) (a b : List Char) :
    scanList d σ (a ++ b) =
      ((scanList d (scanList d σ a).1 b).1,
       (scanList d σ a).2 ++ (scanList d (scanList d σ a).1 b).2) := by
  induction a generalizing σ with
  | nil => simp [scanList]
  | cons c cs ih => simp [scanList, ih, List.append_assoc]

/-- A character that, scanned from any unquoted state, flushes the pending
token and leaves a clean state. -/
def NeutralChar (d : SqlDialect) (c : Char) : Prop :=
  ∀ p, scanStep d ⟨false, p⟩ c = (⟨false, .none⟩, flushPend p)

/-- A character that maps the clean state to itself without emitting. -/
def InertChar (d : SqlDialect) (c : Char) : Prop :=
  scanStep d ⟨false, .none⟩ c = (⟨false, .none⟩, [])

/-- A string that scans from the clean state to the clean state without
emitting any token. -/
def InertStr (d : SqlDialect) (s : String) : Prop :=
  scanList d ⟨false, .none⟩ s.data = (⟨false, .none⟩, [])

theorem neutralChar_of (d : SqlDialect) (c : Char)
    (h1 : c ≠ '"') (h2 : c ≠ '$') (h3 : c ≠ '@') (h4 : c ≠ '?')
    (h5 : c ≠ 'p') (h6 : c.isDigit = false) : NeutralChar d c := by
  intro p
  cases d <;> cases p <;>
    simp [scanStep, flushPend, h1, h2, h3, h4, h5, h6]

theorem inertChar_of (d : SqlDialect) (c : Char)
    (h1 : c ≠ '"') (h2 : c ≠ '$') (h3 : c ≠ '@') (h4 : c ≠ '?') :
    InertChar d c := by
  cases d <;> simp [InertChar, scanStep, flushPend, h1, h2, h3, h4]

theorem scanList_inert_chars (d : SqlDialect) (l : List Char)
    (h : ∀ c ∈ l, InertChar d c) :
    scanList d ⟨false, .none⟩ l = (⟨false, .none⟩, []) := by
  induction l with
  | nil => rfl
  | cons c cs ih =>
      have hc : scanStep d ⟨false, .none⟩ c = (⟨false, .none⟩, []) :=
        h c (List.mem_cons_self c cs)
      simp [scanList, hc, ih fun x hx => h x (List.mem_cons_of_mem c hx)]

theorem inertStr_of_chars (d : SqlDialect) (s : String)
    (h : ∀ c ∈ s.data, c ≠ '"' ∧ c ≠ '$' ∧ c ≠ '@' ∧ c ≠ '?') : InertStr d s :=
  scanList_inert_chars d s.data fun c hc =>
    inertChar_of d c (h c hc).1 (h c hc).2.1 (h c hc).2.2.1 (h c hc).2.2.2

theorem inertStr_append {d : SqlDialect} {a b : String}
    (ha : InertStr d a) (hb : InertStr d b) : InertStr d (a ++ b) := by
  unfold InertStr at *
  rw [String.data_append, scanList_append, ha]
  simpa [ha] using hb

theorem digitChar_isDigit {n : Nat} (h : n < 10) : (Nat.digitChar n).isDigit = true := by
  interval_cases n <;> decide

theorem toDigitsCore_all_digits :
    ∀ (fuel n : Nat) (acc : List Char),
      (∀ c ∈ acc, c.isDigit = true) →
      ∀ c ∈ Nat.toDigitsCore 10 fuel n acc, c.isDigit = true := by
  intro fuel
  induction fuel with
  | zero => intro n acc hacc; simpa [Nat.toDigitsCore] using hacc
  | succ f ih =>
      intro n acc hacc c hc
      have hd : (Nat.digitChar (n % 10)).isDigit = true :=
        digitChar_isDigit (Nat.mod_lt _ (by norm_num))
      rw [Nat.toDigitsCore] at hc
      by_cases h10 : n / 10 = 0
      · simp only [h10, if_pos rfl] at hc
        rcases List.mem_cons.mp hc with rfl | hmem
        · exact hd
        · exact hacc c hmem
      · simp only [h10, if_neg h10] at hc
        refine ih (n / 10) (Nat.digitChar (n % 10) :: acc) ?_ c hc
        intro x hx
        rcases List.mem_cons.mp hx with rfl | hmem
        · exact hd
        · exact hacc x hmem

theorem nat_repr_all_digits (n : Nat) : ∀ c ∈ (Nat.repr n).data, c.isDigit = true := by
  intro c hc
  have hdata : (Nat.repr n).data = Nat.toDigits 10 n := rfl
  rw [hdata, Nat.toDigits] at hc
  exact toDigitsCore_all_digits _ _ [] (by simp) c hc

theorem isDigit_ne {c : Char} (h : c.isDigit = true) :
    c ≠ '"' ∧ c ≠ '$' ∧ c ≠ '@' ∧ c ≠ '?' ∧ c ≠ 'p' := by
  refine ⟨?_, ?_, ?_, ?_, ?_⟩ <;> rintro rfl <;> exact absurd h (by decide)

theorem scanList_digit_acc (d : SqlDialect) (hd : d = .pg ∨ d = .mssql)
    (ds cs : List Char) (h : ∀ c ∈ cs, c.isDigit = true) :
    scanList d ⟨false, .acc ds⟩ cs = (⟨false, .acc (ds ++ cs)⟩, []) := by
  induction cs generalizing ds with
  | nil => simp [scanList]
  | cons c cs ih =>
      have hc := h c (List.mem_cons_self c cs)
      obtain ⟨h1, h2, h3, -, -⟩ := isDigit_ne hc
      have step : scanStep d ⟨false, .acc ds⟩ c = (⟨false, .acc (ds ++ [c])⟩, []) := by
        rcases hd with rfl | rfl <;> simp [scanStep, h1, h2, h3, hc]
      have := ih (ds ++ [c]) (fun x hx => h x (List.mem_cons_of_mem c hx))
      simp [scanList, step, this, List.append_assoc]

theorem string_mk_data (s : String) : String.mk s.data = s := rfl

theorem phTokens_one (d : SqlDialect) (k : Nat) :
    phTokens d k 1 = (match d with
      | .pg => [Nat.repr k] | .mssql => [Nat.repr k] | _ => ["?"]) := by
  cases d <;> simp [phTokens, List.range']

theorem scanList_placeholder (d : SqlDialect) (hd : d = .pg ∨ d = .mssql) (k : Nat) :
    scanList d ⟨false, .none⟩ (placeholder d k).data
      = (⟨false, .acc (Nat.repr k).data⟩, []) := by
  rcases hd with rfl | rfl
  · have hdata : (placeholder .pg k).data = '$' :: (Nat.repr k).data := by
      show ("$" ++ Nat.repr k).data = _
      rw [String.data_append]; rfl
    have step : scanStep .pg ⟨false, .none⟩ '$' = (⟨false, .acc []⟩, []) := by
      simp [scanStep, flushPend]
    have hdig := scanList_digit_acc .pg (Or.inl rfl) [] (Nat.repr k).data
      (nat_repr_all_digits k)
    rw [hdata]
    simp only [scanList, step, hdig, List.nil_append]
  · have hdata : (placeholder .mssql k).data = '@' :: 'p' :: (Nat.repr k).data := by
      show ("@p" ++ Nat.repr k).data = _
      rw [String.data_append]; rfl
    have step1 : scanStep .mssql ⟨false, .none⟩ '@' = (⟨false, .sawAt⟩, []) := by
      simp [scanStep, flushPend]
    have step2 : scanStep .mssql ⟨false, .sawAt⟩ 'p' = (⟨false, .acc []⟩, []) := by
      simp [scanStep]
    have hdig := scanList_digit_acc .mssql (Or.inr rfl) [] (Nat.repr k).data
      (nat_repr_all_digits k)
    rw [hdata]
    simp only [scanList, step1, step2, hdig, List.nil_append]

theorem placeholder_clauseTok (d : SqlDialect) (k : Nat) :
    ClauseTok d k 1 (placeholder d k) := by
  cases d
  case pg =>
    have h := scanList_placeholder .pg (Or.inl rfl) k
    constructor <;> rw [h] <;> simp [flushPend, string_mk_data, phTokens_one]
  case mssql =>
    have h := scanList_placeholder .mssql (Or.inr rfl) k
    constructor <;> rw [h] <;> simp [flushPend, string_mk_data, phTokens_one]
  case mysql2 =>
    constructor <;> simp [placeholder, scanList, scanStep, flushPend, phTokens_one]
  case sqlite =>
    constructor <;> simp [placeholder, scanList, scanStep, flushPend, phTokens_one]

theorem scanList_inQuote_escaped (d : SqlDialect) (cs : List Char) :
    scanList d ⟨true, .none⟩
      (cs.flatMap fun c => if c = '"' then ['"', '"'] else [c]) = (⟨true, .none⟩, []) := by
  induction cs with
  | nil => rfl
  | cons c cs ih =>
      rw [List.flatMap_cons, scanList_append]
      have hpre : scanList d ⟨true, .none⟩ (if c = '"' then ['"', '"'] else [c])
          = (⟨true, .none⟩, []) := by
        by_cases hc : c = '"'
        · subst hc
          have s1 : scanStep d ⟨true, .none⟩ '"' = (⟨false, .none⟩, []) := by
            simp [scanStep]
          have s2 : scanStep d ⟨false, .none⟩ '"' = (⟨true, .none⟩, []) := by
            simp [scanStep, flushPend]
          simp [scanList, s1, s2]
        · have s1 : scanStep d ⟨true, .none⟩ c = (⟨true, .none⟩, []) := by
            simp [scanStep, hc]
          simp [hc, scanList, s1]
      rw [hpre]
      simpa using ih

theorem quoteIdentifier_inert (d : SqlDialect) (name : String) :
    InertStr d (quoteIdentifier name) := by
  unfold InertStr
  have hdata : (quoteIdentifier name).data =
      '"' :: ((name.data.flatMap fun c => if c = '"' then ['"', '"'] else [c]) ++ ['"']) := by
    simp [quoteIdentifier, String.data_append]
  have s1 : scanStep d ⟨false, .none⟩ '"' = (⟨true, .none⟩, []) := by
    simp [scanStep, flushPend]
  have s2 : scanStep d ⟨true, .none⟩ '"' = (⟨false, .none⟩, []) := by
    simp [scanStep]
  rw [hdata]
  rw [show ('"' :: ((name.data.flatMap fun c => if c = '"' then ['"', '"'] else [c]) ++ ['"']))
      = ['"'] ++ ((name.data.flatMap fun c => if c = '"' then ['"', '"'] else [c]) ++ ['"']) from rfl]
  rw [scanList_append, scanList_append]
  simp [scanList, s1, s2, scanList_inQuote_escaped]

/-! ### Composition lemmas for `ClauseTok` -/

theorem phTokens_append (d : SqlDialect) (k n m : Nat) :
    phTokens d k n ++ phTokens d (k + n) m = phTokens d k (n + m) := by
  cases d <;>
    simp [phTokens, ← List.map_append, ← List.replicate_add] <;>
    rw [Nat.add_comm m n]

theorem phTokens_zero (d : SqlDialect) (k : Nat) : phTokens d k 0 = [] := by
  cases d <;> simp [phTokens]

theorem clauseTok_empty (d : SqlDialect) (k : Nat) : ClauseTok d k 0 "" := by
  constructor <;>
    simp [scanList, flushPend, phTokens_zero, show ("" : String).data = [] from rfl]

theorem clauseTok_of_inert {d : SqlDialect} {s : String} (k : Nat)
    (h : InertStr d s) : ClauseTok d k 0 s := by
  unfold InertStr at h
  constructor <;> simp [ClauseTok, h, flushPend, phTokens_zero]

theorem clauseTok_prepend {d : SqlDialect} {k n : Nat} {a s : String}
    (ha : InertStr d a) (hs : ClauseTok d k n s) : ClauseTok d k n (a ++ s) := by
  unfold InertStr at ha
  obtain ⟨h1, h2⟩ := hs
  constructor <;> rw [String.data_append, scanList_append, ha] <;> simpa

theorem scanList_sep (d : SqlDialect) (p : PendTok) {c : Char} {rest : List Char}
    (hc : NeutralChar d c) (hrest : scanList d ⟨false, .none⟩ rest = (⟨false, .none⟩, [])) :
    scanList d ⟨false, p⟩ (c :: rest) = (⟨false, .none⟩, flushPend p) := by
  simp [scanList, hc p, hrest]

/-- A separator string usable between clause pieces: non-empty, the first
character flushes any pending token, the rest is inert. -/
def SepOK (d : SqlDialect) (sep : String) : Prop :=
  ∃ c rest, sep.data = c :: rest ∧ NeutralChar d c ∧
    scanList d ⟨false, .none⟩ rest = (⟨false, .none⟩, [])

theorem clauseTok_concat {d : SqlDialect} {k n m : Nat} {a b : String} (sep : String)
    (ha : ClauseTok d k n a) (hb : ClauseTok d (k + n) m b) (hsep : SepOK d sep) :
    ClauseTok d k (n + m) (a ++ sep ++ b) := by
  obtain ⟨c, rest, hdat, hc, hrest⟩ := hsep
  obtain ⟨ha1, ha2⟩ := ha
  obtain ⟨hb1, hb2⟩ := hb
  have key : scanList d ⟨false, (scanList d ⟨false, .none⟩ a.data).1.pend⟩ sep.data
      = (⟨false, .none⟩, flushPend (scanList d ⟨false, .none⟩ a.data).1.pend) := by
    rw [hdat]; exact scanList_sep d _ hc hrest
  constructor <;>
    rw [String.data_append, String.data_append, scanList_append, scanList_append]
  · have : (⟨(scanList d ⟨false, .none⟩ a.data).1.inQuote,
        (scanList d ⟨false, .none⟩ a.data).1.pend⟩ : ScanState)
        = (scanList d ⟨false, .none⟩ a.data).1 := rfl
    rw [← this, ha1, key]
    simpa using hb1
  · have : (⟨(scanList d ⟨false, .none⟩ a.data).1.inQuote,
        (scanList d ⟨false, .none⟩ a.data).1.pend⟩ : ScanState)
        = (scanList d ⟨false, .none⟩ a.data).1 := rfl
    rw [← this, ha1, key]
    have := phTokens_append d k n m
    simp only [List.append_assoc]
    rw [← this, ← ha2, ← hb2]
    simp [List.append_assoc]

theorem clauseTok_append_sep {d : SqlDialect} {k n : Nat} {s : String} (sep : String)
    (hs : ClauseTok d k n s) (hsep : SepOK d sep) : ClauseTok d k n (s ++ sep) := by
  have := clauseTok_concat sep hs (clauseTok_empty d (k + n)) hsep
  simpa [show s ++ sep ++ "" = s ++ sep by simp] using this

/-- Characters that can never begin or belong to a placeholder token and
never toggle quoting. -/
def plainChar (c : Char) : Bool :=
  !(c = '"' || c = '$' || c = '@' || c = '?')

theorem inertStr_of_plain (d : SqlDialect) (s : String)
    (h : s.data.all plainChar = true) : InertStr d s := by
  apply scanList_inert_chars
  intro c hc
  have hpc := List.all_eq_true.mp h c hc
  simp only [plainChar, Bool.not_eq_true', Bool.or_eq_false_iff, decide_eq_false_iff_not] at hpc
  exact inertChar_of d c hpc.1.1.1 hpc.1.1.2 hpc.1.2 hpc.2

/-- Head character of a valid separator: plain, not a digit, not `p`. -/
def sepHeadOK (c : Char) : Bool :=
  plainChar c && !c.isDigit && !(c = 'p')

theorem sepOK_of (d : SqlDialect) (sep : String) (c : Char) (rest : List Char)
    (hdat : sep.data = c :: rest) (hc : sepHeadOK c = true)
    (hrest : rest.all plainChar = true) : SepOK d sep := by
  refine ⟨c, rest, hdat, ?_, ?_⟩
  · simp only [sepHeadOK, plainChar, Bool.and_eq_true, Bool.not_eq_true',
      Bool.or_eq_false_iff, decide_eq_false_iff_not] at hc
    exact neutralChar_of d c hc.1.1.1.1.1 hc.1.1.1.1.2 hc.1.1.1.2 hc.1.1.2 hc.2 hc.1.2
  · apply scanList_inert_chars
    intro x hx
    have hpc := List.all_eq_true.mp hrest x hx
    simp only [plainChar, Bool.not_eq_true', Bool.or_eq_false_iff,
      decide_eq_false_iff_not] at hpc
    exact inertChar_of d x hpc.1.1.1 hpc.1.1.2 hpc.1.2 hpc.2

theorem sepOK_and (d : SqlDialect) : SepOK d " AND " :=
  sepOK_of d " AND " ' ' "AND ".data rfl (by decide) (by decide)

theorem sepOK_or (d : SqlDialect) : SepOK d " OR " :=
  sepOK_of d " OR " ' ' "OR ".data rfl (by decide) (by decide)

theorem sepOK_comma (d : SqlDialect) : SepOK d ", " :=
  sepOK_of d ", " ',' " ".data rfl (by decide) (by decide)

theorem sepOK_rparen (d : SqlDialect) : SepOK d ")" :=
  sepOK_of d ")" ')' [] rfl (by decide) (by decide)

/-- A list of clause pieces that consume consecutive placeholder-number
ranges: piece `i` has tokens `phTokens d kᵢ nᵢ` with `kᵢ₊₁ = kᵢ + nᵢ`. -/
inductive Chain (d : SqlDialect) : Nat → List String → Nat → Prop where
  | nil (k : Nat) : Chain d k [] 0
  | cons {k n₁ n₂ : Nat} {s : String} {rest : List String} :
      ClauseTok d k n₁ s → Chain d (k + n₁) rest n₂ → Chain d k (s :: rest) (n₁ + n₂)

theorem Chain.single {d : SqlDialect} {k n : Nat} {s : String}
    (h : ClauseTok d k n s) : Chain d k [s] n := by
  have := Chain.cons h (Chain.nil (k + n))
  simpa using this

theorem Chain.append {d : SqlDialect} {k n : Nat} {ps : List String}
    (h1 : Chain d k ps n) :
    ∀ {m : Nat} {qs : List String}, Chain d (k + n) qs m → Chain d k (ps ++ qs) (n + m) := by
  induction h1 with
  | nil k0 => intro m qs h2; simpa using h2
  | @cons k' n₁ n₂ s rest hc _ ih =>
      intro m qs h2
      have h2' : Chain d (k' + n₁ + n₂) qs m := by rw [Nat.add_assoc]; exact h2
      have := Chain.cons hc (ih h2')
      simpa [Nat.add_assoc] using this

theorem chain_placeholders (d : SqlDialect) (k : Nat) (m : Nat) :
    Chain d k ((List.range m).map fun i => placeholder d (k + i)) m := by
  induction m with
  | zero => simpa using Chain.nil k
  | succ m ih =>
      rw [List.range_succ, List.map_append]
      have single : Chain d (k + m) [placeholder d (k + m)] 1 :=
        Chain.single (placeholder_clauseTok d (k + m))
      have := Chain.append ih single
      simpa using this

theorem chain_joinSep {d : SqlDialect} {k n : Nat} {ps : List String} (sep : String)
    (h : Chain d k ps n) (hsep : SepOK d sep) : ClauseTok d k n (joinSep sep ps) := by
  induction h with
  | nil k0 => exact clauseTok_empty d k0
  | @cons k' n₁ n₂ s rest hc hrest ih =>
      cases rest with
      | nil =>
          cases hrest
          simpa [joinSep] using hc
      | cons r rs =>
          rw [show joinSep sep (s :: r :: rs) = s ++ sep ++ joinSep sep (r :: rs) from rfl]
          exact clauseTok_concat sep hc ih hsep

theorem chain_nil_inv {d : SqlDialect} {k n : Nat} (h : Chain d k [] n) : n = 0 := by
  cases h; rfl

theorem inertStr_lit (d : SqlDialect) (s : String) (h : s.data.all plainChar = true) :
    InertStr d s := inertStr_of_plain d s h

theorem clauseTok_cmp (d : SqlDialect) (k : Nat) (qk mid : String)
    (hqk : InertStr d qk) (hmid : InertStr d mid) :
    ClauseTok d k 1 (qk ++ mid ++ placeholder d k) :=
  clauseTok_prepend (inertStr_append hqk hmid) (placeholder_clauseTok d k)

theorem clauseTok_inert_app {d : SqlDialect} (k : Nat) {a b : String}
    (ha : InertStr d a) (hb : InertStr d b) : ClauseTok d k 0 (a ++ b) :=
  clauseTok_of_inert k (inertStr_append ha hb)

theorem joinParts_clauseTok {d : SqlDialect} {k : Nat} {pv : List String × List JsValue}
    (h : Chain d k pv.1 pv.2.length) :
    ClauseTok d k (joinParts pv).values.length (joinParts pv).clause := by
  obtain ⟨parts, vals⟩ := pv
  by_cases hp : parts = []
  · subst hp
    have hlen : vals.length = 0 := chain_nil_inv h
    simp only [joinParts, ne_eq, not_true_eq_false, if_false]
    rw [hlen]
    exact clauseTok_of_inert k (inertStr_lit d "1=1" (by decide))
  · rw [show (joinParts (parts, vals)).clause = joinSep " AND " parts from by
        simp [joinParts, hp]]
    rw [show (joinParts (parts, vals)).values = vals from rfl]
    exact chain_joinSep " AND " h (sepOK_and d)

theorem chain_stringEntries (d : SqlDialect) (cs : List Char) :
    ∀ (i k : Nat),
      Chain d k (stringEntriesSQL i cs d k).1 (stringEntriesSQL i cs d k).2.length := by
  induction cs with
  | nil => intro i k; exact Chain.nil k
  | cons c rest ih =>
      intro i k
      have hpart : ClauseTok d k 1
          (quoteIdentifier (toString i) ++ " = " ++ placeholder d k) :=
        clauseTok_cmp d k _ _ (quoteIdentifier_inert d _) (inertStr_lit d " = " (by decide))
      have := Chain.cons hpart (ih (i + 1) (k + 1))
      simpa [stringEntriesSQL, Nat.add_comm] using this

theorem translateRegexToSQL_values (qk pat : String) (d : SqlDialect) (k : Nat) :
    (translateRegexToSQL qk pat d k).values.length = 1 := by
  cases d <;> simp [translateRegexToSQL, regexToLike]

theorem translateRegexToSQL_clauseTok (qk pat : String) (d : SqlDialect) (k : Nat)
    (hqk : InertStr d qk) : ClauseTok d k 1 (translateRegexToSQL qk pat d k).clause := by
  cases d
  case pg =>
    exact clauseTok_cmp _ k qk " ~ " hqk (inertStr_lit _ " ~ " (by decide))
  case mysql2 =>
    exact clauseTok_cmp _ k qk " REGEXP " hqk (inertStr_lit _ " REGEXP " (by decide))
  case mssql =>
    exact clauseTok_cmp _ k qk " LIKE " hqk (inertStr_lit _ " LIKE " (by decide))
  case sqlite =>
    exact clauseTok_cmp _ k qk " LIKE " hqk (inertStr_lit _ " LIKE " (by decide))

theorem exbind_ok {ε α β : Type _} (a : α) (f : α → Except ε β) :
    (Except.ok a : Except ε α) >>= f = f a := rfl

theorem exbind_err {ε α β : Type _} (e : ε) (f : α → Except ε β) :
    (Except.error e : Except ε α) >>= f = .error e := rfl

theorem iteOkTok {d : SqlDialect} {k : Nat} (c : Bool) (A B : SqlTranslation)
    (r : SqlTranslation)
    (hA : ClauseTok d k A.values.length A.clause)
    (hB : ClauseTok d k B.values.length B.clause)
    (h : (if c then (Except.ok A : Except JsThrow SqlTranslation) else .ok B) = .ok r) :
    ClauseTok d k r.values.length r.clause := by
  cases c
  · rw [if_neg (by simp)] at h
    injection h with h2; subst h2; exact hB
  · rw [if_pos rfl] at h
    injection h with h2; subst h2; exact hA

/-! ### The placeholder-token invariant, by strong induction on term size -/

set_option maxHeartbeats 1600000 in
theorem sql_tok_main : ∀ N : Nat,
    (∀ (v : JsValue) (d : SqlDialect) (k : Nat) (r : SqlTranslation),
      sizeOf v ≤ N → translateToSQL v d k = .ok r →
      ClauseTok d k r.values.length r.clause) ∧
    (∀ (fs : List (String × JsValue)) (d : SqlDialect) (k : Nat)
      (pv : List String × List JsValue),
      sizeOf fs ≤ N → translateEntries fs d k = .ok pv →
      Chain d k pv.1 pv.2.length) ∧
    (∀ (i : Nat) (xs : List JsValue) (d : SqlDialect) (k : Nat)
      (pv : List String × List JsValue),
      sizeOf xs ≤ N → translateArrEntries i xs d k = .ok pv →
      Chain d k pv.1 pv.2.length) ∧
    (∀ (xs : List JsValue) (d : SqlDialect) (k : Nat)
      (pv : List String × List JsValue),
      sizeOf xs ≤ N → translateSubfilters xs d k = .ok pv →
      Chain d k pv.1 pv.2.length) ∧
    (∀ (qk : String) (ops : List (String × JsValue)) (d : SqlDialect) (k : Nat)
      (pv : List String × List JsValue),
      sizeOf ops ≤ N → InertStr d qk → translateBag qk ops d k = .ok pv →
      Chain d k pv.1 pv.2.length) ∧
    (∀ (qk : String) (ops : List (String × JsValue)) (d : SqlDialect) (k : Nat)
      (pv : List String × List JsValue),
      sizeOf ops ≤ N → InertStr d qk → translateNotOps qk ops d k = .ok pv →
      Chain d k pv.1 pv.2.length) ∧
    (∀ (qk : String) (kind : SqlOpKind) (op : String) (v : JsValue)
      (d : SqlDialect) (k : Nat) (r : SqlTranslation),
      sizeOf v ≤ N → InertStr d qk → translateOpCase qk kind op v d k = .ok r →
      ClauseTok d k r.values.length r.clause) := by
  intro N
  induction N using Nat.strong_induction_on with
  | _ N IH =>
  have tok1eq1 : ∀ (d : SqlDialect) (k : Nat), ClauseTok d k 0 "1=1" := fun d k =>
    clauseTok_of_inert k (inertStr_lit d "1=1" (by decide))
  refine ⟨?_, ?_, ?_, ?_, ?_, ?_, ?_⟩
  -- Part 1: translateToSQL
  · intro v d k r hsz h
    cases v with
    | vNull =>
        simp only [translateToSQL, ite_self] at h
        injection h with h2; subst h2; exact tok1eq1 d k
    | vUndef =>
        simp only [translateToSQL, ite_self] at h
        injection h with h2; subst h2; exact tok1eq1 d k
    | vBool b =>
        simp only [translateToSQL, ite_self] at h
        injection h with h2; subst h2; exact tok1eq1 d k
    | vInt n =>
        simp only [translateToSQL, ite_self] at h
        injection h with h2; subst h2; exact tok1eq1 d k
    | vDate ms =>
        simp only [translateToSQL, ite_self] at h
        injection h with h2; subst h2; exact tok1eq1 d k
    | vRegExp src =>
        simp only [translateToSQL, ite_self] at h
        injection h with h2; subst h2; exact tok1eq1 d k
    | vStr s =>
        simp only [translateToSQL] at h
        by_cases hs : s = ""
        · rw [if_pos (by simp [jsTruthy, hs])] at h
          injection h with h2; subst h2; exact tok1eq1 d k
        · rw [if_neg (by simp [jsTruthy, hs])] at h
          injection h with h2; subst h2
          exact joinParts_clauseTok (chain_stringEntries d s.data 0 k)
    | vArr xs =>
        cases xs with
        | nil =>
            simp only [translateToSQL, ite_self] at h
            injection h with h2; subst h2; exact tok1eq1 d k
        | cons x xs' =>
            simp only [translateToSQL] at h
            rw [if_neg (by simp [jsTruthy])] at h
            have hm : sizeOf (x :: xs') < N := by
              have hv : sizeOf (JsValue.vArr (x :: xs')) = 1 + sizeOf (x :: xs') := by
                simp
              omega
            cases hE : translateArrEntries 0 (x :: xs') d k with
            | error e => rw [hE, exbind_err] at h; exact Except.noConfusion h
            | ok pv =>
                rw [hE] at h
                simp only [exbind_ok] at h
                injection h with h2; subst h2
                exact joinParts_clauseTok
                  ((IH _ hm).2.2.1 0 (x :: xs') d k pv le_rfl hE)
    | vObj fs =>
        cases fs with
        | nil =>
            simp only [translateToSQL, ite_self] at h
            injection h with h2; subst h2; exact tok1eq1 d k
        | cons f fs' =>
            simp only [translateToSQL] at h
            rw [if_neg (by simp [jsTruthy])] at h
            have hm : sizeOf (f :: fs') < N := by
              have hv : sizeOf (JsValue.vObj (f :: fs')) = 1 + sizeOf (f :: fs') := by
                simp
              omega
            cases hE : translateEntries (f :: fs') d k with
            | error e => rw [hE, exbind_err] at h; exact Except.noConfusion h
            | ok pv =>
                rw [hE] at h
                simp only [exbind_ok] at h
                injection h with h2; subst h2
                exact joinParts_clauseTok
                  ((IH _ hm).2.1 (f :: fs') d k pv le_rfl hE)
  -- Part 2: translateEntries
  · intro fs d k pv hsz h
    cases fs with
    | nil =>
        simp only [translateEntries] at h
        injection h with h2; subst h2
        exact Chain.nil k
    | cons e rest =>
        obtain ⟨key, value⟩ := e
        have hszrest : sizeOf rest < N := by
          have h1 : sizeOf ((key, value) :: rest) = 1 + sizeOf (key, value) + sizeOf rest := by
            simp
          have h2 : (0 : Nat) < sizeOf (key, value) := by
            have : sizeOf (key, value) = 1 + sizeOf key + sizeOf value := by simp
            omega
          omega
        have hszval : sizeOf value < N := by
          have h1 : sizeOf ((key, value) :: rest) = 1 + sizeOf (key, value) + sizeOf rest := by
            simp
          have h2 : sizeOf (key, value) = 1 + sizeOf key + sizeOf value := by simp
          omega
        have hqk : InertStr d (quoteIdentifier key) := quoteIdentifier_inert d key
        have hrestIH : ∀ (k' : Nat) (pv' : List String × List JsValue),
            translateEntries rest d k' = .ok pv' → Chain d k' pv'.1 pv'.2.length :=
          fun k' pv' hE => (IH _ hszrest).2.1 rest d k' pv' le_rfl hE
        have hnullcase :
            (do
              let (ps, vs) ← translateEntries rest d k
              (.ok ((quoteIdentifier key ++ " IS NULL") :: ps, vs) :
                Except JsThrow (List String × List JsValue))) = .ok pv →
            Chain d k pv.1 pv.2.length := by
          intro hh
          cases hE : translateEntries rest d k with
          | error e => rw [hE, exbind_err] at hh; exact Except.noConfusion hh
          | ok pv2 =>
              obtain ⟨ps, vs⟩ := pv2
              rw [hE] at hh
              simp only [exbind_ok] at hh
              injection hh with h2; subst h2
              have hrest : Chain d k ps vs.length := hrestIH k (ps, vs) hE
              have hpart : ClauseTok d k 0 (quoteIdentifier key ++ " IS NULL") :=
                clauseTok_inert_app k hqk (inertStr_lit d " IS NULL" (by decide))
              have := Chain.cons hpart (show Chain d (k + 0) ps vs.length by
                simpa using hrest)
              simpa using this
        have heqcase : ∀ (w : JsValue),
            (do
              let (ps, vs) ← translateEntries rest d (k + 1)
              (.ok ((quoteIdentifier key ++ " = " ++ placeholder d k) :: ps, w :: vs) :
                Except JsThrow (List String × List JsValue))) = .ok pv →
            Chain d k pv.1 pv.2.length := by
          intro w hh
          cases hE : translateEntries rest d (k + 1) with
          | error e => rw [hE, exbind_err] at hh; exact Except.noConfusion hh
          | ok pv2 =>
              obtain ⟨ps, vs⟩ := pv2
              rw [hE] at hh
              simp only [exbind_ok] at hh
              injection hh with h2; subst h2
              have hrest : Chain d (k + 1) ps vs.length := hrestIH (k + 1) (ps, vs) hE
              have hpart : ClauseTok d k 1
                  (quoteIdentifier key ++ " = " ++ placeholder d k) :=
                clauseTok_cmp d k _ _ hqk (inertStr_lit d " = " (by decide))
              have := Chain.cons hpart hrest
              simpa [Nat.add_comm] using this
        have hbagcase :
            ∀ (ops : List (String × JsValue)), sizeOf ops < N →
            (do
              let (bagParts, bagVals) ← translateBag (quoteIdentifier key) ops d k
              let (ps, vs) ← translateEntries rest d (k + bagVals.length)
              (.ok (bagParts ++ ps, bagVals ++ vs) :
                Except JsThrow (List String × List JsValue))) = .ok pv →
            Chain d k pv.1 pv.2.length := by
          intro ops hmo hh
          cases hB : translateBag (quoteIdentifier key) ops d k with
          | error e => rw [hB, exbind_err] at hh; exact Except.noConfusion hh
          | ok bv =>
              obtain ⟨bagParts, bagVals⟩ := bv
              rw [hB] at hh
              simp only [exbind_ok] at hh
              cases hE : translateEntries rest d (k + bagVals.length) with
              | error e => rw [hE, exbind_err] at hh; exact Except.noConfusion hh
              | ok pv2 =>
                  obtain ⟨ps, vs⟩ := pv2
                  rw [hE] at hh
                  simp only [exbind_ok] at hh
                  injection hh with h2; subst h2
                  have hbag : Chain d k bagParts bagVals.length :=
                    (IH _ hmo).2.2.2.2.1 (quoteIdentifier key) ops d k
                      (bagParts, bagVals) le_rfl hqk hB
                  have hrest : Chain d (k + bagVals.length) ps vs.length :=
                    hrestIH (k + bagVals.length) (ps, vs) hE
                  have := Chain.append hbag hrest
                  simpa using this
        have hlogArr : ∀ (x : JsValue) (xs' : List JsValue),
            sizeOf (x :: xs') < N →
            (key = "$and" ∨ key = "$or" ∨ key = "$nor") →
            (do
              let (subClauses, vs) ← translateSubfilters (x :: xs') d k
              let part :=
                if subClauses = [] then []
                else if key = "$nor" then
                  ["NOT (" ++ joinSep " OR " subClauses ++ ")"]
                else
                  ["(" ++ joinSep (if key = "$and" then " AND " else " OR ")
                    subClauses ++ ")"]
              let (ps, vs2) ← translateEntries rest d (k + vs.length)
              (.ok (part ++ ps, vs ++ vs2) :
                Except JsThrow (List String × List JsValue))) = .ok pv →
            Chain d k pv.1 pv.2.length := by
          intro x xs' hmx _ hh
          cases hSub : translateSubfilters (x :: xs') d k with
          | error e => rw [hSub, exbind_err] at hh; exact Except.noConfusion hh
          | ok sv =>
              obtain ⟨subs, vs⟩ := sv
              rw [hSub] at hh
              simp only [exbind_ok] at hh
              cases hE : translateEntries rest d (k + vs.length) with
              | error e => rw [hE, exbind_err] at hh; exact Except.noConfusion hh
              | ok pv2 =>
                  obtain ⟨ps, vs2⟩ := pv2
                  rw [hE] at hh
                  simp only [exbind_ok] at hh
                  injection hh with h2; subst h2
                  have hchainsub : Chain d k subs vs.length :=
                    (IH _ hmx).2.2.2.1 (x :: xs') d k (subs, vs) le_rfl hSub
                  have hchainrest : Chain d (k + vs.length) ps vs2.length :=
                    hrestIH (k + vs.length) (ps, vs2) hE
                  by_cases hsubs : subs = []
                  · rw [if_pos hsubs]
                    subst hsubs
                    have hvs : vs.length = 0 := chain_nil_inv hchainsub
                    have hvsnil : vs = [] := List.length_eq_zero.mp hvs
                    subst hvsnil
                    simpa using hchainrest
                  · rw [if_neg hsubs]
                    rw [show (if key = "$nor" then
                          ["NOT (" ++ joinSep " OR " subs ++ ")"]
                        else
                          ["(" ++ joinSep (if key = "$and" then " AND " else " OR ")
                            subs ++ ")"])
                        = [if key = "$nor" then
                            "NOT (" ++ joinSep " OR " subs ++ ")"
                          else
                            "(" ++ joinSep (if key = "$and" then " AND " else " OR ")
                              subs ++ ")"] from by
                      by_cases hnor : key = "$nor" <;> simp [hnor]]
                    have hpart : ClauseTok d k vs.length
                        (if key = "$nor" then
                          "NOT (" ++ joinSep " OR " subs ++ ")"
                         else
                          "(" ++ joinSep (if key = "$and" then " AND " else " OR ")
                            subs ++ ")") := by
                      by_cases hnor : key = "$nor"
                      · rw [if_pos hnor]
                        exact clauseTok_append_sep ")"
                          (clauseTok_prepend (inertStr_lit d "NOT (" (by decide))
                            (chain_joinSep " OR " hchainsub (sepOK_or d)))
                          (sepOK_rparen d)
                      · rw [if_neg hnor]
                        by_cases hand : key = "$and"
                        · rw [if_pos hand]
                          exact clauseTok_append_sep ")"
                            (clauseTok_prepend (inertStr_lit d "(" (by decide))
                              (chain_joinSep " AND " hchainsub (sepOK_and d)))
                            (sepOK_rparen d)
                        · rw [if_neg hand]
                          exact clauseTok_append_sep ")"
                            (clauseTok_prepend (inertStr_lit d "(" (by decide))
                              (chain_joinSep " OR " hchainsub (sepOK_or d)))
                            (sepOK_rparen d)
                    have := Chain.append (Chain.single hpart) hchainrest
                    simpa using this
        cases value with
        | vArr xsv =>
            cases xsv with
            | nil =>
                simp only [translateEntries] at h
                by_cases hkey : key = "$and" ∨ key = "$or" ∨ key = "$nor"
                · rw [if_pos hkey] at h
                  exact hrestIH k pv h
                · rw [if_neg hkey] at h
                  by_cases hds : startsWithDollar key = true
                  · rw [if_pos hds] at h; exact Except.noConfusion h
                  · rw [if_neg hds] at h
                    exact heqcase _ h
            | cons x xs' =>
                have hmx : sizeOf (x :: xs') < N := by
                  have hv : sizeOf (JsValue.vArr (x :: xs')) = 1 + sizeOf (x :: xs') := by
                    simp
                  omega
                simp only [translateEntries] at h
                by_cases hkey : key = "$and" ∨ key = "$or" ∨ key = "$nor"
                · rw [if_pos hkey] at h
                  exact hlogArr x xs' hmx hkey h
                · rw [if_neg hkey] at h
                  by_cases hds : startsWithDollar key = true
                  · rw [if_pos hds] at h; exact Except.noConfusion h
                  · rw [if_neg hds] at h
                    exact heqcase _ h
        | vNull =>
            simp only [translateEntries] at h
            by_cases hkey : key = "$and" ∨ key = "$or" ∨ key = "$nor"
            · rw [if_pos hkey] at h; exact hrestIH k pv h
            · rw [if_neg hkey] at h
              by_cases hds : startsWithDollar key = true
              · rw [if_pos hds] at h; exact Except.noConfusion h
              · rw [if_neg hds] at h; exact hnullcase h
        | vUndef =>
            simp only [translateEntries] at h
            by_cases hkey : key = "$and" ∨ key = "$or" ∨ key = "$nor"
            · rw [if_pos hkey] at h; exact hrestIH k pv h
            · rw [if_neg hkey] at h
              by_cases hds : startsWithDollar key = true
              · rw [if_pos hds] at h; exact Except.noConfusion h
              · rw [if_neg hds] at h; exact hnullcase h
        | vObj ops =>
            have hmo : sizeOf ops < N := by
              have hv : sizeOf (JsValue.vObj ops) = 1 + sizeOf ops := by simp
              omega
            simp only [translateEntries] at h
            by_cases hkey : key = "$and" ∨ key = "$or" ∨ key = "$nor"
            · rw [if_pos hkey] at h; exact hrestIH k pv h
            · rw [if_neg hkey] at h
              by_cases hds : startsWithDollar key = true
              · rw [if_pos hds] at h; exact Except.noConfusion h
              · rw [if_neg hds] at h; exact hbagcase ops hmo h
        | vBool b =>
            simp only [translateEntries] at h
            by_cases hkey : key = "$and" ∨ key = "$or" ∨ key = "$nor"
            · rw [if_pos hkey] at h; exact hrestIH k pv h
            · rw [if_neg hkey] at h
              by_cases hds : startsWithDollar key = true
              · rw [if_pos hds] at h; exact Except.noConfusion h
              · rw [if_neg hds] at h; exact heqcase _ h
        | vInt n =>
            simp only [translateEntries] at h
            by_cases hkey : key = "$and" ∨ key = "$or" ∨ key = "$nor"
            · rw [if_pos hkey] at h; exact hrestIH k pv h
            · rw [if_neg hkey] at h
              by_cases hds : startsWithDollar key = true
              · rw [if_pos hds] at h; exact Except.noConfusion h
              · rw [if_neg hds] at h; exact heqcase _ h
        | vStr s =>
            simp only [translateEntries] at h
            by_cases hkey : key = "$and" ∨ key = "$or" ∨ key = "$nor"
            · rw [if_pos hkey] at h; exact hrestIH k pv h
            · rw [if_neg hkey] at h
              by_cases hds : startsWithDollar key = true
              · rw [if_pos hds] at h; exact Except.noConfusion h
              · rw [if_neg hds] at h; exact heqcase _ h
        | vDate ms =>
            simp only [translateEntries] at h
            by_cases hkey : key = "$and" ∨ key = "$or" ∨ key = "$nor"
            · rw [if_pos hkey] at h; exact hrestIH k pv h
            · rw [if_neg hkey] at h
              by_cases hds : startsWithDollar key = true
              · rw [if_pos hds] at h; exact Except.noConfusion h
              · rw [if_neg hds] at h; exact heqcase _ h
        | vRegExp src =>
            simp only [translateEntries] at h
            by_cases hkey : key = "$and" ∨ key = "$or" ∨ key = "$nor"
            · rw [if_pos hkey] at h; exact hrestIH k pv h
            · rw [if_neg hkey] at h
              by_cases hds : startsWithDollar key = true
              · rw [if_pos hds] at h; exact Except.noConfusion h
              · rw [if_neg hds] at h; exact heqcase _ h
  -- Part 3: translateArrEntries
  · intro i xs d k pv hsz h
    cases xs with
    | nil =>
        simp only [translateArrEntries] at h
        injection h with h2; subst h2
        exact Chain.nil k
    | cons value rest =>
        have hszrest : sizeOf rest < N := by
          have h1 : sizeOf (value :: rest) = 1 + sizeOf value + sizeOf rest := by simp
          omega
        have hszval : sizeOf value < N := by
          have h1 : sizeOf (value :: rest) = 1 + sizeOf value + sizeOf rest := by simp
          omega
        have hqk : InertStr d (quoteIdentifier (toString i)) := quoteIdentifier_inert d _
        have hrestIH : ∀ (k' : Nat) (pv' : List String × List JsValue),
            translateArrEntries (i + 1) rest d k' = .ok pv' → Chain d k' pv'.1 pv'.2.length :=
          fun k' pv' hE => (IH _ hszrest).2.2.1 (i + 1) rest d k' pv' le_rfl hE
        have hnullcase :
            (do
              let (ps, vs) ← translateArrEntries (i + 1) rest d k
              (.ok ((quoteIdentifier (toString i) ++ " IS NULL") :: ps, vs) :
                Except JsThrow (List String × List JsValue))) = .ok pv →
            Chain d k pv.1 pv.2.length := by
          intro hh
          cases hE : translateArrEntries (i + 1) rest d k with
          | error e => rw [hE, exbind_err] at hh; exact Except.noConfusion hh
          | ok pv2 =>
              obtain ⟨ps, vs⟩ := pv2
              rw [hE] at hh
              simp only [exbind_ok] at hh
              injection hh with h2; subst h2
              have hrest : Chain d k ps vs.length := hrestIH k (ps, vs) hE
              have hpart : ClauseTok d k 0 (quoteIdentifier (toString i) ++ " IS NULL") :=
                clauseTok_inert_app k hqk (inertStr_lit d " IS NULL" (by decide))
              have := Chain.cons hpart (show Chain d (k + 0) ps vs.length by
                simpa using hrest)
              simpa using this
        have heqcase : ∀ (w : JsValue),
            (do
              let (ps, vs) ← translateArrEntries (i + 1) rest d (k + 1)
              (.ok ((quoteIdentifier (toString i) ++ " = " ++ placeholder d k) :: ps,
                w :: vs) : Except JsThrow (List String × List JsValue))) = .ok pv →
            Chain d k pv.1 pv.2.length := by
          intro w hh
          cases hE : translateArrEntries (i + 1) rest d (k + 1) with
          | error e => rw [hE, exbind_err] at hh; exact Except.noConfusion hh
          | ok pv2 =>
              obtain ⟨ps, vs⟩ := pv2
              rw [hE] at hh
              simp only [exbind_ok] at hh
              injection hh with h2; subst h2
              have hrest : Chain d (k + 1) ps vs.length := hrestIH (k + 1) (ps, vs) hE
              have hpart : ClauseTok d k 1
                  (quoteIdentifier (toString i) ++ " = " ++ placeholder d k) :=
                clauseTok_cmp d k _ _ hqk (inertStr_lit d " = " (by decide))
              have := Chain.cons hpart hrest
              simpa [Nat.add_comm] using this
        cases value with
        | vNull => simp only [translateArrEntries] at h; exact hnullcase h
        | vUndef => simp only [translateArrEntries] at h; exact hnullcase h
        | vObj ops =>
            have hmo : sizeOf ops < N := by
              have hv : sizeOf (JsValue.vObj ops) = 1 + sizeOf ops := by simp
              omega
            simp only [translateArrEntries] at h
            cases hB : translateBag (quoteIdentifier (toString i)) ops d k with
            | error e => rw [hB, exbind_err] at h; exact Except.noConfusion h
            | ok bv =>
                obtain ⟨bagParts, bagVals⟩ := bv
                rw [hB] at h
                simp only [exbind_ok] at h
                cases hE : translateArrEntries (i + 1) rest d (k + bagVals.length) with
                | error e => rw [hE, exbind_err] at h; exact Except.noConfusion h
                | ok pv2 =>
                    obtain ⟨ps, vs⟩ := pv2
                    rw [hE] at h
                    simp only [exbind_ok] at h
                    injection h with h2; subst h2
                    have hbag : Chain d k bagParts bagVals.length :=
                      (IH _ hmo).2.2.2.2.1 (quoteIdentifier (toString i)) ops d k
                        (bagParts, bagVals) le_rfl hqk hB
                    have hrest : Chain d (k + bagVals.length) ps vs.length :=
                      hrestIH (k + bagVals.length) (ps, vs) hE
                    have := Chain.append hbag hrest
                    simpa using this
        | vBool b => simp only [translateArrEntries] at h; exact heqcase _ h
        | vInt n => simp only [translateArrEntries] at h; exact heqcase _ h
        | vStr s => simp only [translateArrEntries] at h; exact heqcase _ h
        | vDate ms => simp only [translateArrEntries] at h; exact heqcase _ h
        | vRegExp src => simp only [translateArrEntries] at h; exact heqcase _ h
        | vArr xsv => simp only [translateArrEntries] at h; exact heqcase _ h
  -- Part 4: translateSubfilters
  · intro xs d k pv hsz h
    cases xs with
    | nil =>
        simp only [translateSubfilters] at h
        injection h with h2; subst h2
        exact Chain.nil k
    | cons x rest =>
        have hszrest : sizeOf rest < N := by
          have h1 : sizeOf (x :: rest) = 1 + sizeOf x + sizeOf rest := by simp
          omega
        have hszx : sizeOf x < N := by
          have h1 : sizeOf (x :: rest) = 1 + sizeOf x + sizeOf rest := by simp
          omega
        simp only [translateSubfilters] at h
        cases hS : translateToSQL x d k with
        | error e => rw [hS, exbind_err] at h; exact Except.noConfusion h
        | ok sub =>
            rw [hS] at h
            simp only [exbind_ok] at h
            by_cases hcnd : sub.clause ≠ "" ∧ sub.clause ≠ "1=1"
            · rw [if_pos hcnd] at h
              cases hR : translateSubfilters rest d (k + sub.values.length) with
              | error e => rw [hR, exbind_err] at h; exact Except.noConfusion h
              | ok sv =>
                  obtain ⟨ss, vs⟩ := sv
                  rw [hR] at h
                  simp only [exbind_ok] at h
                  injection h with h2; subst h2
                  have hsub : ClauseTok d k sub.values.length sub.clause :=
                    (IH _ hszx).1 x d k sub le_rfl hS
                  have hpart : ClauseTok d k sub.values.length
                      ("(" ++ sub.clause ++ ")") :=
                    clauseTok_append_sep ")"
                      (clauseTok_prepend (inertStr_lit d "(" (by decide)) hsub)
                      (sepOK_rparen d)
                  have hrest : Chain d (k + sub.values.length) ss vs.length :=
                    (IH _ hszrest).2.2.2.1 rest d (k + sub.values.length) (ss, vs)
                      le_rfl hR
                  have := Chain.cons hpart hrest
                  simpa using this
            · rw [if_neg hcnd] at h
              exact (IH _ hszrest).2.2.2.1 rest d k pv le_rfl h
  -- Part 5: translateBag
  · intro qk ops d k pv hsz hqk h
    cases ops with
    | nil =>
        simp only [translateBag] at h
        injection h with h2; subst h2
        exact Chain.nil k
    | cons o rest =>
        obtain ⟨op, opVal⟩ := o
        have hszrest : sizeOf rest < N := by
          have h1 : sizeOf ((op, opVal) :: rest) = 1 + sizeOf (op, opVal) + sizeOf rest := by
            simp
          have h2 : (0 : Nat) < sizeOf (op, opVal) := by
            have : sizeOf (op, opVal) = 1 + sizeOf op + sizeOf opVal := by simp
            omega
          omega
        have hszval : sizeOf opVal < N := by
          have h1 : sizeOf ((op, opVal) :: rest) = 1 + sizeOf (op, opVal) + sizeOf rest := by
            simp
          have h2 : sizeOf (op, opVal) = 1 + sizeOf op + sizeOf opVal := by simp
          omega
        simp only [translateBag] at h
        cases hO : translateOpCase qk (parseSqlOp op) op opVal d k with
        | error e => rw [hO, exbind_err] at h; exact Except.noConfusion h
        | ok rr =>
            rw [hO] at h
            simp only [exbind_ok] at h
            cases hB : translateBag qk rest d (k + rr.values.length) with
            | error e => rw [hB, exbind_err] at h; exact Except.noConfusion h
            | ok pv2 =>
                obtain ⟨ps, vs⟩ := pv2
                rw [hB] at h
                simp only [exbind_ok] at h
                injection h with h2; subst h2
                have hop : ClauseTok d k rr.values.length rr.clause :=
                  (IH _ hszval).2.2.2.2.2.2 qk (parseSqlOp op) op opVal d k rr
                    le_rfl hqk hO
                have hrest : Chain d (k + rr.values.length) ps vs.length :=
                  (IH _ hszrest).2.2.2.2.1 qk rest d (k + rr.values.length) (ps, vs)
                    le_rfl hqk hB
                have := Chain.cons hop hrest
                simpa using this
  -- Part 6: translateNotOps
  · intro qk ops d k pv hsz hqk h
    cases ops with
    | nil =>
        simp only [translateNotOps] at h
        injection h with h2; subst h2
        exact Chain.nil k
    | cons o rest =>
        obtain ⟨op, opVal⟩ := o
        have hszrest : sizeOf rest < N := by
          have h1 : sizeOf ((op, opVal) :: rest) = 1 + sizeOf (op, opVal) + sizeOf rest := by
            simp
          have h2 : (0 : Nat) < sizeOf (op, opVal) := by
            have : sizeOf (op, opVal) = 1 + sizeOf op + sizeOf opVal := by simp
            omega
          omega
        have hszval : sizeOf opVal < N := by
          have h1 : sizeOf ((op, opVal) :: rest) = 1 + sizeOf (op, opVal) + sizeOf rest := by
            simp
          have h2 : sizeOf (op, opVal) = 1 + sizeOf op + sizeOf opVal := by simp
          omega
        simp only [translateNotOps] at h
        cases hO : translateOpCase qk (parseSqlOp op) op opVal d k with
        | error e => rw [hO, exbind_err] at h; exact Except.noConfusion h
        | ok rr =>
            rw [hO] at h
            simp only [exbind_ok] at h
            by_cases hcl : rr.clause ≠ ""
            · rw [if_pos hcl] at h
              cases hB : translateNotOps qk rest d (k + rr.values.length) with
              | error e => rw [hB, exbind_err] at h; exact Except.noConfusion h
              | ok pv2 =>
                  obtain ⟨ps, vs⟩ := pv2
                  rw [hB] at h
                  simp only [exbind_ok] at h
                  injection h with h2; subst h2
                  have hop : ClauseTok d k rr.values.length rr.clause :=
                    (IH _ hszval).2.2.2.2.2.2 qk (parseSqlOp op) op opVal d k rr
                      le_rfl hqk hO
                  have hrest : Chain d (k + rr.values.length) ps vs.length :=
                    (IH _ hszrest).2.2.2.2.2.1 qk rest d (k + rr.values.length) (ps, vs)
                      le_rfl hqk hB
                  have := Chain.cons hop hrest
                  simpa using this
            · rw [if_neg hcl] at h
              exact (IH _ hszrest).2.2.2.2.2.1 qk rest d k pv le_rfl hqk h
  -- Part 7: translateOpCase
  · intro qk kind op v d k r hsz hqk h
    have hisnull : ClauseTok d k 0 (qk ++ " IS NULL") :=
      clauseTok_inert_app k hqk (inertStr_lit d " IS NULL" (by decide))
    have hisnotnull : ClauseTok d k 0 (qk ++ " IS NOT NULL") :=
      clauseTok_inert_app k hqk (inertStr_lit d " IS NOT NULL" (by decide))
    cases kind with
    | opEq =>
        cases v <;>
          first
            | (injection h with h2
               subst h2
               exact hisnull)
            | (injection h with h2
               subst h2
               exact clauseTok_cmp d k _ _ hqk (inertStr_lit d " = " (by decide)))
    | opNe =>
        cases v <;>
          first
            | (injection h with h2
               subst h2
               exact hisnotnull)
            | (injection h with h2
               subst h2
               exact clauseTok_cmp d k _ _ hqk (inertStr_lit d " != " (by decide)))
    | opGt =>
        cases v <;>
          (injection h with h2
           subst h2
           exact clauseTok_cmp d k _ _ hqk (inertStr_lit d " > " (by decide)))
    | opGte =>
        cases v <;>
          (injection h with h2
           subst h2
           exact clauseTok_cmp d k _ _ hqk (inertStr_lit d " >= " (by decide)))
    | opLt =>
        cases v <;>
          (injection h with h2
           subst h2
           exact clauseTok_cmp d k _ _ hqk (inertStr_lit d " < " (by decide)))
    | opLte =>
        cases v <;>
          (injection h with h2
           subst h2
           exact clauseTok_cmp d k _ _ hqk (inertStr_lit d " <= " (by decide)))
    | opIn =>
        cases v
        case vArr l =>
          cases l with
          | nil =>
              injection h with h2; subst h2
              exact clauseTok_of_inert k (inertStr_lit d "1=0" (by decide))
          | cons a as =>
              injection h with h2; subst h2
              have hjoin : ClauseTok d k (a :: as).length
                  (joinSep ", " ((List.range (a :: as).length).map fun i =>
                    placeholder d (k + i))) :=
                chain_joinSep ", " (chain_placeholders d k (a :: as).length)
                  (sepOK_comma d)
              exact clauseTok_append_sep ")"
                (clauseTok_prepend
                  (inertStr_append hqk (inertStr_lit d " IN (" (by decide))) hjoin)
                (sepOK_rparen d)
        all_goals
          (injection h with h2
           subst h2
           exact clauseTok_of_inert k (inertStr_lit d "1=0" (by decide)))
    | opNin =>
        cases v
        case vArr l =>
          cases l with
          | nil =>
              injection h with h2; subst h2
              exact clauseTok_of_inert k (inertStr_lit d "1=1" (by decide))
          | cons a as =>
              injection h with h2; subst h2
              have hjoin : ClauseTok d k (a :: as).length
                  (joinSep ", " ((List.range (a :: as).length).map fun i =>
                    placeholder d (k + i))) :=
                chain_joinSep ", " (chain_placeholders d k (a :: as).length)
                  (sepOK_comma d)
              exact clauseTok_append_sep ")"
                (clauseTok_prepend
                  (inertStr_append hqk (inertStr_lit d " NOT IN (" (by decide))) hjoin)
                (sepOK_rparen d)
        all_goals
          (injection h with h2
           subst h2
           exact clauseTok_of_inert k (inertStr_lit d "1=1" (by decide)))
    | opExists =>
        have hEx : ∀ (w : JsValue),
            (if jsTruthy w then
              (Except.ok { clause := qk ++ " IS NOT NULL", values := [] } :
                Except JsThrow SqlTranslation)
            else .ok { clause := qk ++ " IS NULL", values := [] }) = .ok r →
            ClauseTok d k r.values.length r.clause := fun w hw =>
          iteOkTok (jsTruthy w) { clause := qk ++ " IS NOT NULL", values := [] }
            { clause := qk ++ " IS NULL", values := [] } r hisnotnull hisnull hw
        cases v with
        | vNull => exact hEx .vNull h
        | vUndef => exact hEx .vUndef h
        | vBool b => exact hEx (.vBool b) h
        | vInt n => exact hEx (.vInt n) h
        | vStr s => exact hEx (.vStr s) h
        | vDate ms => exact hEx (.vDate ms) h
        | vRegExp src => exact hEx (.vRegExp src) h
        | vArr xs => exact hEx (.vArr xs) h
        | vObj fs => exact hEx (.vObj fs) h
    | opRegex =>
        cases v <;>
          (injection h with h2
           subst h2
           rw [translateRegexToSQL_values]
           exact translateRegexToSQL_clauseTok qk _ d k hqk)
    | opOptions =>
        cases v <;>
          (injection h with h2
           subst h2
           exact clauseTok_empty d k)
    | opNot =>
        cases v with
        | vObj sub =>
            have hms : sizeOf sub < N := by
              have hv : sizeOf (JsValue.vObj sub) = 1 + sizeOf sub := by simp
              omega
            have h' : (do
                let (parts, vals) ← translateNotOps qk sub d k
                if parts = [] then
                  (Except.ok { clause := "", values := [] } :
                    Except JsThrow SqlTranslation)
                else
                  Except.ok { clause := "NOT (" ++ joinSep " AND " parts ++ ")"
                              values := vals }) = .ok r := h
            clear h
            cases hNot : translateNotOps qk sub d k with
            | error e => rw [hNot, exbind_err] at h'; exact Except.noConfusion h'
            | ok nv =>
                obtain ⟨parts, vals⟩ := nv
                rw [hNot] at h'
                simp only [exbind_ok] at h'
                by_cases hp : parts = []
                · rw [if_pos hp] at h'
                  injection h' with h2; subst h2
                  exact clauseTok_empty d k
                · rw [if_neg hp] at h'
                  injection h' with h2; subst h2
                  have hchain : Chain d k parts vals.length :=
                    (IH _ hms).2.2.2.2.2.1 qk sub d k (parts, vals) le_rfl hqk hNot
                  exact clauseTok_append_sep ")"
                    (clauseTok_prepend (inertStr_lit d "NOT (" (by decide))
                      (chain_joinSep " AND " hchain (sepOK_and d)))
                    (sepOK_rparen d)
        | vNull => exact Except.noConfusion h
        | vUndef => exact Except.noConfusion h
        | vArr xsv =>
            cases xsv with
            | nil =>
                injection h with h2; subst h2
                exact clauseTok_empty d k
            | cons y ys => exact Except.noConfusion h
        | vStr s =>
            have h' : (if s = "" then
                (Except.ok { clause := "", values := [] } :
                  Except JsThrow SqlTranslation)
              else .error (.strict (unknownFilterOperatorError "0" .sql))) = .ok r := h
            clear h
            by_cases hs : s = ""
            · rw [if_pos hs] at h'
              injection h' with h2; subst h2
              exact clauseTok_empty d k
            · rw [if_neg hs] at h'
              exact Except.noConfusion h'
        | vBool b => injection h with h2; subst h2; exact clauseTok_empty d k
        | vInt n => injection h with h2; subst h2; exact clauseTok_empty d k
        | vDate ms => injection h with h2; subst h2; exact clauseTok_empty d k
        | vRegExp src => injection h with h2; subst h2; exact clauseTok_empty d k
    | opSize =>
        cases d with
        | pg =>
            cases v <;>
              (injection h with h2
               subst h2
               exact clauseTok_prepend
                 (inertStr_append
                   (inertStr_append
                     (inertStr_lit _ "jsonb_array_length(" (by decide)) hqk)
                   (inertStr_lit _ ") = " (by decide)))
                 (placeholder_clauseTok _ k))
        | mysql2 =>
            cases v <;>
              (injection h with h2
               subst h2
               exact clauseTok_prepend
                 (inertStr_append
                   (inertStr_append (inertStr_lit _ "JSON_LENGTH(" (by decide)) hqk)
                   (inertStr_lit _ ") = " (by decide)))
                 (placeholder_clauseTok _ k))
        | mssql =>
            cases v <;>
              (injection h with h2
               subst h2
               exact clauseTok_prepend
                 (inertStr_append
                   (inertStr_append
                     (inertStr_lit _ "json_array_length(" (by decide)) hqk)
                   (inertStr_lit _ ") = " (by decide)))
                 (placeholder_clauseTok _ k))
        | sqlite =>
            cases v <;>
              (injection h with h2
               subst h2
               exact clauseTok_prepend
                 (inertStr_append
                   (inertStr_append
                     (inertStr_lit _ "json_array_length(" (by decide)) hqk)
                   (inertStr_lit _ ") = " (by decide)))
                 (placeholder_clauseTok _ k))
    | opUnknown => cases v <;> exact Except.noConfusion h

theorem translateToSQL_tokens (v : JsValue) (d : SqlDialect) (k : Nat)
    (r : SqlTranslation) (h : translateToSQL v d k = .ok r) :
    sqlPlaceholderTokens d r.clause = phTokens d k r.values.length :=
  ((sql_tok_main (sizeOf v)).1 v d k r le_rfl h).tokens

theorem phTokens_length (d : SqlDialect) (k n : Nat) : (phTokens d k n).length = n := by
  cases d <;> simp [phTokens]

/-- **C1.** For every filter `F` (any JavaScript value) and every SQL
dialect, when `translateToSQL F dialect` returns, the number of
placeholder occurrences in the returned clause (as extracted by the
quote-aware scanner `sqlPlaceholderTokens`) equals `values.length`, and in
the numbered-placeholder dialects (`pg`: `$N`, `mssql`: `@pN`) the
occurring numbers are exactly `1, 2, …, values.length` in order
(`phTokens d 1 n = [1, …, n]` rendered in decimal). -/
theorem C1_placeholder_count_dense (v : JsValue) (d : SqlDialect)
    (r : SqlTranslation) (h : translateToSQL v d 1 = .ok r) :
    (sqlPlaceholderTokens d r.clause).length = r.values.length ∧
    sqlPlaceholderTokens d r.clause = phTokens d 1 r.values.length ∧
    ((d = .pg ∨ d = .mssql) →
      sqlPlaceholderTokens d r.clause
        = (List.range' 1 r.values.length).map Nat.repr) := by
  have htok := translateToSQL_tokens v d 1 r h
  refine ⟨by rw [htok, phTokens_length], htok, ?_⟩
  rintro (rfl | rfl) <;> rw [htok] <;> rfl

/-- Witness for C1 at the concrete filter
`{age: {$gte: 18, $lt: 65}, role: 'admin'}` in the PostgreSQL dialect. -/
theorem C1_placeholder_count_dense_witness :
    (sqlPlaceholderTokens .pg "\"age\" >= $1 AND \"age\" < $2 AND \"role\" = $3").length
      = 3 ∧
    sqlPlaceholderTokens .pg "\"age\" >= $1 AND \"age\" < $2 AND \"role\" = $3"
      = phTokens .pg 1 3 := by
  have := C1_placeholder_count_dense
    (.vObj [("age", .vObj [("$gte", .vInt 18), ("$lt", .vInt 65)]),
            ("role", .vStr "admin")]) .pg
    { clause := "\"age\" >= $1 AND \"age\" < $2 AND \"role\" = $3"
      values := [.vInt 18, .vInt 65, .vStr "admin"] }
    rfl
  exact ⟨this.1, this.2.1⟩

/-! ## Guardrails (`src/guardrails.ts`) -/

/-- `Object.keys(filter).length` for the shapes a JS value can take. -/
def jsKeyCount : JsValue → Nat
  | .vObj fs => fs.length
  | .vArr xs => xs.length
  | .vStr s => s.length
  | _ => 0

/-- `isEmptyFilter(filter)`: `!filter || Object.keys(filter).length === 0`. -/
def isEmptyFilter (filter : JsValue) : Bool :=
  !jsTruthy filter || jsKeyCount filter == 0

/-- The error built by `emitAndThrow` (the `guardrail-blocked` event emitted
just before the throw carries `{collection, operation, reason := message}`
and is not modelled; the throw itself is). -/
def guardrailBlockedError (collection operation message fix : String) : StrictDBError :=
  { code := .GUARDRAIL_BLOCKED
    message := message
    fix := fix
    backend := .mongo
    collection := some collection
    operation := some operation }

/-- `checkGuardrails(ctx, operation, collection, filter, options)`.
`ctx` is reduced to its `enabled` flag (the emitter only receives the
event described at `guardrailBlockedError`); the optional `options`
object is flattened into its two optional fields, `limit` and `confirm`
(`options?.limit`/`options?.confirm` are `undefined` exactly when the
corresponding `Option` is `none`). -/
def checkGuardrails (enabled : Bool) (operation collection : String)
    (filter : JsValue) (limit : Option Nat) (confirm : Option String) :
    Except StrictDBError Unit :=
  if !enabled then .ok ()
  else
    let isEmpty := isEmptyFilter filter
    if operation = "deleteMany" then
      if isEmpty ∧ confirm ≠ some "DELETE_ALL" then
        .error (guardrailBlockedError collection operation
          "deleteMany requires a non-empty filter to prevent accidental data loss."
          ("To delete all documents: db.deleteMany('" ++ collection ++
            "', \x7b _id: \x7b $exists: true \x7d \x7d, \x7b confirm: 'DELETE_ALL' \x7d)"))
      else .ok ()
    else if operation = "updateMany" then
      if isEmpty ∧ confirm ≠ some "UPDATE_ALL" then
        .error (guardrailBlockedError collection operation
          "updateMany requires a non-empty filter to prevent accidental mass updates."
          ("To update all documents: db.updateMany('" ++ collection ++
            "', \x7b _id: \x7b $exists: true \x7d \x7d, update, \x7b confirm: 'UPDATE_ALL' \x7d)"))
      else .ok ()
    else if operation = "deleteOne" then
      if isEmpty then
        .error (guardrailBlockedError collection operation
          "deleteOne requires a non-empty filter. An empty filter would delete an arbitrary document."
          ("Specify a filter to identify the document: db.deleteOne('" ++ collection ++
            "', \x7b id: \"...\" \x7d)"))
      else .ok ()
    else if operation = "queryMany" then
      if limit = none then
        .error (guardrailBlockedError collection operation
          "queryMany without a limit could return millions of rows."
          ("Always include a limit: db.queryMany('" ++ collection ++
            "', filter, \x7b limit: 100 \x7d)"))
      else .ok ()
    else .ok ()

/-- **C3.** When guardrails are disabled `checkGuardrails` never blocks;
when enabled, a `GUARDRAIL_BLOCKED` throw happens exactly for the four rows
of the decision table — `deleteMany` on an empty filter without
`confirm = 'DELETE_ALL'`, `updateMany` on an empty filter without
`confirm = 'UPDATE_ALL'`, `deleteOne` on an empty filter, and `queryMany`
with an absent limit — and for no other combination. -/
theorem C3_guardrails_decision_table :
    (∀ (operation collection : String) (filter : JsValue) (limit : Option Nat)
       (confirm : Option String),
       checkGuardrails false operation collection filter limit confirm = .ok ()) ∧
    (∀ (operation collection : String) (filter : JsValue) (limit : Option Nat)
       (confirm : Option String),
       (∃ e, checkGuardrails true operation collection filter limit confirm = .error e ∧
          e.code = .GUARDRAIL_BLOCKED) ↔
       ((operation = "deleteMany" ∧ isEmptyFilter filter = true ∧
           confirm ≠ some "DELETE_ALL") ∨
        (operation = "updateMany" ∧ isEmptyFilter filter = true ∧
           confirm ≠ some "UPDATE_ALL") ∨
        (operation = "deleteOne" ∧ isEmptyFilter filter = true) ∨
        (operation = "queryMany" ∧ limit = none))) := by
  have ne12 : ("deleteMany" : String) ≠ "updateMany" := by decide
  have ne13 : ("deleteMany" : String) ≠ "deleteOne" := by decide
  have ne14 : ("deleteMany" : String) ≠ "queryMany" := by decide
  have ne23 : ("updateMany" : String) ≠ "deleteOne" := by decide
  have ne24 : ("updateMany" : String) ≠ "queryMany" := by decide
  have ne34 : ("deleteOne" : String) ≠ "queryMany" := by decide
  constructor
  · intro operation collection filter limit confirm
    simp [checkGuardrails]
  · intro operation collection filter limit confirm
    simp only [checkGuardrails, Bool.not_true, Bool.false_eq_true, if_false]
    split_ifs with h1 h2 h3 h4 h5 h6 h7 h8 <;>
      simp_all [guardrailBlockedError, ne12, ne13, ne14, ne23, ne24, ne34]

/-! ## SQL update translation (`translateUpdateToSQL`) -/

/-- The update AST (`UpdateOperators<T>` in `types.ts`): each operator is
an optional field→value map.  `none` is an absent operator; `some []` is a
present-but-empty map (`\x7b\x7d`, truthy in the source's `if (update.$set)`
checks). -/
structure UpdateOperators where
  set : Option (List (String × JsValue)) := none
  inc : Option (List (String × JsValue)) := none
  unset : Option (List (String × JsValue)) := none
  push : Option (List (String × JsValue)) := none
  pull : Option (List (String × JsValue)) := none

structure SqlUpdateTranslation where
  setClauses : String
  values : List JsValue
deriving Repr

/-- The `$set` loop: `"f" = $N`. -/
def setClausesFold (m : List (String × JsValue)) (dialect : SqlDialect) (k : Nat) :
    List String × List JsValue :=
  match m with
  | [] => ([], [])
  | (field, value) :: rest =>
      let (cs, vs) := setClausesFold rest dialect (k + 1)
      ((quoteIdentifier field ++ " = " ++ placeholder dialect k) :: cs, value :: vs)

/-- The `$inc` loop: `"f" = "f" + $N`. -/
def incClausesFold (m : List (String × JsValue)) (dialect : SqlDialect) (k : Nat) :
    List String × List JsValue :=
  match m with
  | [] => ([], [])
  | (field, amount) :: rest =>
      let (cs, vs) := incClausesFold rest dialect (k + 1)
      ((quoteIdentifier field ++ " = " ++ quoteIdentifier field ++ " + " ++
          placeholder dialect k) :: cs, amount :: vs)

/-- The `$unset` loop: `"f" = NULL` (no parameter). -/
def unsetClauses (m : List (String × JsValue)) : List String :=
  m.map fun (field, _) => quoteIdentifier field ++ " = NULL"

/-- The `QUERY_ERROR` thrown when no SET clause was produced. -/
def noSetClausesError : StrictDBError :=
  { code := .QUERY_ERROR
    message := "Update operation has no SET clauses."
    fix := "Provide at least one update operator: $set, $inc, or $unset."
    backend := .sql }

/-- `translateUpdateToSQL(update, dialect, startIdx)`: only `$set`, `$inc`
and `$unset` are consulted (the source has no `$push`/`$pull` branch). -/
def translateUpdateToSQL (update : UpdateOperators) (dialect : SqlDialect)
    (startIdx : Nat := 1) : Except JsThrow SqlUpdateTranslation :=
  let (setCs, setVs) := match update.set with
    | none => ([], [])
    | some m => setClausesFold m dialect startIdx
  let (incCs, incVs) := match update.inc with
    | none => ([], [])
    | some m => incClausesFold m dialect (startIdx + setVs.length)
  let unsetCs := match update.unset with
    | none => []
    | some m => unsetClauses m
  let clauses := setCs ++ incCs ++ unsetCs
  if clauses = [] then .error (.strict noSetClausesError)
  else .ok { setClauses := joinSep ", " clauses, values := setVs ++ incVs }

/-- **C10.** `translateUpdateToSQL` derives SET clauses only from `$set`,
`$inc` and `$unset`: the result is oblivious to `$push` and `$pull`, and
an update whose only present operators are `$push`/`$pull` (in particular
any non-empty update with `$set`, `$inc`, `$unset` all absent) throws
`QUERY_ERROR`; combined with `$set`, the `$push`/`$pull` mutations leave
no trace in the emitted SQL. -/
theorem C10_update_push_pull_ignored :
    (∀ (u : UpdateOperators) (d : SqlDialect) (k : Nat)
       (p q : Option (List (String × JsValue))),
       translateUpdateToSQL { u with push := p, pull := q } d k
         = translateUpdateToSQL u d k) ∧
    (∀ (u : UpdateOperators) (d : SqlDialect) (k : Nat),
       u.set = none → u.inc = none → u.unset = none →
       translateUpdateToSQL u d k = .error (.strict noSetClausesError) ∧
       noSetClausesError.code = .QUERY_ERROR) := by
  constructor
  · intro u d k p q
    rfl
  · intro u d k hs hi hu
    refine ⟨?_, rfl⟩
    simp [translateUpdateToSQL, hs, hi, hu]

/-- Witness for C10 at a concrete `$push`-only update. -/
theorem C10_update_push_pull_ignored_witness :
    translateUpdateToSQL
      { push := some [("tags", .vStr "new")] } .pg 1
      = .error (.strict noSetClausesError) := by
  exact (C10_update_push_pull_ignored.2
    { push := some [("tags", .vStr "new")] } .pg 1 rfl rfl rfl).1

/-! ## Operation receipts and `batch` (`receipts.ts`, `strictdb.ts`) -/

/-- `OperationReceipt` (`types.ts`), without the wall-clock `duration`
field (time-dependent, irrelevant to the counts). -/
structure OperationReceipt where
  operation : String
  collection : String
  success : Bool
  matchedCount : Nat
  modifiedCount : Nat
  insertedCount : Nat
  deletedCount : Nat
  backend : Backend
deriving Repr, DecidableEq

/-- The optional-argument object taken by `createReceipt` (`startTime`
omitted with `duration`). -/
structure ReceiptOpts where
  operation : String
  collection : String
  backend : Backend
  matchedCount : Option Nat := none
  modifiedCount : Option Nat := none
  insertedCount : Option Nat := none
  deletedCount : Option Nat := none
  success : Option Bool := none

/-- `createReceipt` from `receipts.ts`: `??` defaults of 0 / true. -/
def createReceipt (opts : ReceiptOpts) : OperationReceipt :=
  { operation := opts.operation
    collection := opts.collection
    success := opts.success.getD true
    matchedCount := opts.matchedCount.getD 0
    modifiedCount := opts.modifiedCount.getD 0
    insertedCount := opts.insertedCount.getD 0
    deletedCount := opts.deletedCount.getD 0
    backend := opts.backend }

/-- The `op.operation` discriminant of `BatchOperation` (`types.ts`). -/
inductive BatchKind where
  | insertOne | insertMany | updateOne | updateMany | deleteOne | deleteMany
deriving Repr, DecidableEq

/-- The receipt `sql-adapter.ts` `updateOne` builds on the upsert path,
from `performUpsert`'s `\x7b rowCount, inserted \x7d` result. -/
def sqlUpsertUpdateOneReceipt (collection : String) (rowCount : Nat)
    (inserted : Bool) : OperationReceipt :=
  createReceipt
    { operation := "updateOne"
      collection := collection
      backend := .sql
      matchedCount := some (if inserted then 0 else rowCount)
      modifiedCount := some (if inserted then 0 else rowCount)
      insertedCount := some (if inserted then 1 else 0) }

/-- The mutable-counter loop of `StrictDB.batch`: each step is the
operation kind of the `switch` together with the receipt the adapter
returned for it, and the switch adds only the kind's own counter
(`insertedCount` for inserts, `modifiedCount` for updates,
`deletedCount` for deletes). -/
def batchLoop (steps : List (BatchKind × OperationReceipt))
    (inserted modified deleted : Nat) : Nat × Nat × Nat :=
  match steps with
  | [] => (inserted, modified, deleted)
  | (k, r) :: rest =>
    match k with
    | .insertOne => batchLoop rest (inserted + r.insertedCount) modified deleted
    | .insertMany => batchLoop rest (inserted + r.insertedCount) modified deleted
    | .updateOne => batchLoop rest inserted (modified + r.modifiedCount) deleted
    | .updateMany => batchLoop rest inserted (modified + r.modifiedCount) deleted
    | .deleteOne => batchLoop rest inserted modified (deleted + r.deletedCount)
    | .deleteMany => batchLoop rest inserted modified (deleted + r.deletedCount)

/-- The receipt `StrictDB.batch` returns, built by `createReceipt` from
the three accumulated counters. -/
def batchReceipt (backend : Backend)
    (steps : List (BatchKind × OperationReceipt)) : OperationReceipt :=
  let c := batchLoop steps 0 0 0
  createReceipt
    { operation := "batch"
      collection := "batch"
      backend := backend
      insertedCount := some c.1
      modifiedCount := some c.2.1
      deletedCount := some c.2.2 }

/-- Per-step sum of a receipt field over the steps of a batch (the
quantity the claim compares the batch receipt against). -/
def stepSum (f : OperationReceipt → Nat) :
    List (BatchKind × OperationReceipt) → Nat
  | [] => 0
  | s :: rest => f s.2 + stepSum f rest

/-- Per-step sum restricted to steps of the given kinds. -/
def stepSumKinds (ks : List BatchKind) (f : OperationReceipt → Nat) :
    List (BatchKind × OperationReceipt) → Nat
  | [] => 0
  | s :: rest =>
      (if ks.contains s.1 then f s.2 else 0) + stepSumKinds ks f rest

theorem batchLoop_acc (steps : List (BatchKind × OperationReceipt)) :
    ∀ i m d, batchLoop steps i m d =
      (i + (batchLoop steps 0 0 0).1,
       m + (batchLoop steps 0 0 0).2.1,
       d + (batchLoop steps 0 0 0).2.2) := by
  induction steps with
  | nil => intro i m d; simp [batchLoop]
  | cons s rest ih =>
      intro i m d
      obtain ⟨k, r⟩ := s
      cases k
      · simp only [batchLoop]
        rw [ih (i + r.insertedCount) m d, ih (0 + r.insertedCount) 0 0]
        simp only [Prod.mk.injEq]
        refine ⟨?_, ?_, ?_⟩ <;> omega
      · simp only [batchLoop]
        rw [ih (i + r.insertedCount) m d, ih (0 + r.insertedCount) 0 0]
        simp only [Prod.mk.injEq]
        refine ⟨?_, ?_, ?_⟩ <;> omega
      · simp only [batchLoop]
        rw [ih i (m + r.modifiedCount) d, ih 0 (0 + r.modifiedCount) 0]
        simp only [Prod.mk.injEq]
        refine ⟨?_, ?_, ?_⟩ <;> omega
      · simp only [batchLoop]
        rw [ih i (m + r.modifiedCount) d, ih 0 (0 + r.modifiedCount) 0]
        simp only [Prod.mk.injEq]
        refine ⟨?_, ?_, ?_⟩ <;> omega
      · simp only [batchLoop]
        rw [ih i m (d + r.deletedCount), ih 0 0 (0 + r.deletedCount)]
        simp only [Prod.mk.injEq]
        refine ⟨?_, ?_, ?_⟩ <;> omega
      · simp only [batchLoop]
        rw [ih i m (d + r.deletedCount), ih 0 0 (0 + r.deletedCount)]
        simp only [Prod.mk.injEq]
        refine ⟨?_, ?_, ?_⟩ <;> omega

theorem batchLoop_fst (steps : List (BatchKind × OperationReceipt))
    (i m d : Nat) :
    (batchLoop steps i m d).1 = i + (batchLoop steps 0 0 0).1 := by
  rw [batchLoop_acc]

theorem batchLoop_snd_fst (steps : List (BatchKind × OperationReceipt))
    (i m d : Nat) :
    (batchLoop steps i m d).2.1 = m + (batchLoop steps 0 0 0).2.1 := by
  rw [batchLoop_acc]

theorem batchLoop_snd_snd (steps : List (BatchKind × OperationReceipt))
    (i m d : Nat) :
    (batchLoop steps i m d).2.2 = d + (batchLoop steps 0 0 0).2.2 := by
  rw [batchLoop_acc]

/-- **C5 counterexample.** A batch of one `updateOne` step whose upsert
inserted a row: the step's receipt reports `insertedCount = 1`, but the
batch `switch` adds only `modifiedCount` for `updateOne` steps, so the
batch receipt reports `insertedCount = 0` — not the per-step sum `1`. -/
theorem C5_batch_sum_counterexample :
    (sqlUpsertUpdateOneReceipt "users" 1 true).insertedCount = 1 ∧
    (batchReceipt .sql
        [(.updateOne, sqlUpsertUpdateOneReceipt "users" 1 true)]).insertedCount
      = 0 ∧
    (batchReceipt .sql
        [(.updateOne, sqlUpsertUpdateOneReceipt "users" 1 true)]).insertedCount
      ≠ stepSum OperationReceipt.insertedCount
          [(.updateOne, sqlUpsertUpdateOneReceipt "users" 1 true)] :=
  ⟨rfl, rfl, by decide⟩

/-- **C5 (amended).** For every batch, the returned receipt's
`insertedCount` is the per-step sum of `insertedCount` over the
insert steps only, `modifiedCount` the sum of `modifiedCount` over
the update steps only, and `deletedCount` the sum of `deletedCount`
over the delete steps only; counts outside a step's own kind (such as
the `insertedCount = 1` of an upsert-inserting `updateOne`) are
dropped. -/
theorem C5_batch_per_kind_sums (b : Backend)
    (steps : List (BatchKind × OperationReceipt)) :
    (batchReceipt b steps).insertedCount
        = stepSumKinds [.insertOne, .insertMany]
            OperationReceipt.insertedCount steps ∧
    (batchReceipt b steps).modifiedCount
        = stepSumKinds [.updateOne, .updateMany]
            OperationReceipt.modifiedCount steps ∧
    (batchReceipt b steps).deletedCount
        = stepSumKinds [.deleteOne, .deleteMany]
            OperationReceipt.deletedCount steps := by
  suffices h : ∀ st : List (BatchKind × OperationReceipt),
      (batchLoop st 0 0 0).1
          = stepSumKinds [.insertOne, .insertMany]
              OperationReceipt.insertedCount st ∧
      (batchLoop st 0 0 0).2.1
          = stepSumKinds [.updateOne, .updateMany]
              OperationReceipt.modifiedCount st ∧
      (batchLoop st 0 0 0).2.2
          = stepSumKinds [.deleteOne, .deleteMany]
              OperationReceipt.deletedCount st by
    exact h steps
  intro st
  induction st with
  | nil => refine ⟨rfl, rfl, rfl⟩
  | cons s rest ih =>
      obtain ⟨k, r⟩ := s
      obtain ⟨ih1, ih2, ih3⟩ := ih
      refine ⟨?_, ?_, ?_⟩ <;> cases k
      all_goals
        simp only [batchLoop, stepSumKinds]
      all_goals
        first
        | rw [batchLoop_fst]
        | rw [batchLoop_snd_fst]
        | rw [batchLoop_snd_snd]
      all_goals
        first
        | rw [if_pos (by decide)]
        | rw [if_neg (by decide)]
      all_goals
        omega

/-! ## Backend detection and driver-error mapping (`strictdb.ts`, `errors.ts`) -/

/-- `pre` is a prefix of the character list (JS `String.prototype.startsWith`,
expressed on character lists so that it computes definitionally). -/
def charsPrefix : List Char → List Char → Bool
  | [], _ => true
  | _ :: _, [] => false
  | p :: ps, c :: cs => p == c && charsPrefix ps cs

/-- `s.startsWith(pre)`. -/
def strStartsWith (s pre : String) : Bool :=
  charsPrefix pre.data s.data

/-- `needle` occurs as a contiguous run of `hay` (JS
`String.prototype.includes`). -/
def charsContains (needle : List Char) : List Char → Bool
  | [] => charsPrefix needle []
  | c :: rest => charsPrefix needle (c :: rest) || charsContains needle rest

/-- `s.includes(sub)`. -/
def strIncludes (s sub : String) : Bool :=
  charsContains sub.data s.data

/-- A regex-whitespace character (the complement of `\S`). -/
def isRegexSpace (c : Char) : Bool :=
  c = ' ' || c = '\t' || c = '\n' || c = '\r' || c = '\x0b' || c = '\x0c'

/-- The maximal leading run of non-whitespace characters (`\S+`, greedy). -/
def takeNonSpace : List Char → List Char
  | [] => []
  | c :: cs => if isRegexSpace c then [] else c :: takeNonSpace cs

/-- `message.match(/index: (\S+)/)`: the leftmost position at which
`"index: "` is followed by at least one non-whitespace character, and the
maximal `\S+` run there. -/
def findIndexName : List Char → Option String
  | [] => none
  | c :: cs =>
      if charsPrefix "index: ".data (c :: cs)
          && !((c :: cs).drop 7).head?.all isRegexSpace
          && ((c :: cs).drop 7) ≠ [] then
        some (String.mk (takeNonSpace ((c :: cs).drop 7)))
      else findIndexName cs

/-- `detectBackend(uri)` from `strictdb.ts`.  The unsupported-scheme
throw passes no `retryable`, so the constructor default `false`
applies. -/
def detectBackend (uri : String) : Except StrictDBError Backend :=
  if strStartsWith uri "mongodb://" || strStartsWith uri "mongodb+srv://" then .ok .mongo
  else if strStartsWith uri "postgresql://" || strStartsWith uri "postgres://" then .ok .sql
  else if strStartsWith uri "mysql://" then .ok .sql
  else if strStartsWith uri "mssql://" then .ok .sql
  else if strStartsWith uri "file:" || strStartsWith uri "sqlite:" then .ok .sql
  else if strStartsWith uri "http://" || strStartsWith uri "https://" then .ok .elastic
  else .error
    { code := .CONNECTION_FAILED
      message := "Unsupported URI scheme in \"" ++ String.mk (uri.data.take 20) ++ "...\""
      fix := "Use mongodb://, postgresql://, mysql://, mssql://, sqlite:, or https:// for Elasticsearch."
      backend := .mongo }

/-- A MongoDB driver error as `mapMongoError` reads it: the fields the
mapper consults (`originalError` is dropped from the normalized model),
with `strRep` standing for JS `String(err)`. -/
structure MongoDriverError where
  code : Option Int := none
  message : Option String := none
  strRep : String := "[object Object]"

/-- `mapMongoError(err, collection, operation)` from `errors.ts`. -/
def mapMongoError (e : MongoDriverError) (collection operation : Option String) :
    StrictDBError :=
  let message := e.message.getD e.strRep
  if e.code = some 11000 then
    let indexName := (findIndexName message.data).getD "unknown"
    { code := .DUPLICATE_KEY
      message := "Duplicate key violation on index \"" ++ indexName
        ++ "\" in \"" ++ collection.getD "unknown" ++ "\"."
      fix := "A document with this value already exists. Use db.updateOne() to update instead, or check for existence with db.queryOne() first."
      backend := .mongo, collection := collection, operation := operation }
  else if strIncludes message "topology was destroyed"
      || strIncludes message "TopologyDescription"
      || strIncludes message "Server selection timed out" then
    { code := .CONNECTION_LOST
      message := "MongoDB connection lost."
      fix := "Connection will auto-reconnect. If persistent, check the MongoDB URI and network connectivity."
      backend := .mongo, collection := collection, operation := operation
      retryable := true }
  else if e.code = some 18 || strIncludes message "Authentication failed"
      || strIncludes message "EAUTH" then
    { code := .AUTHENTICATION_FAILED
      message := "MongoDB authentication failed."
      fix := "Check your MongoDB username and password in the connection URI."
      backend := .mongo, collection := collection, operation := operation }
  else if strIncludes message "ECONNREFUSED"
      || strIncludes message "connect ENOTFOUND" then
    { code := .CONNECTION_FAILED
      message := "Cannot connect to MongoDB."
      fix := "Verify the MongoDB URI is correct and the server is running. Check firewall and network access."
      backend := .mongo, collection := collection, operation := operation
      retryable := true }
  else if strIncludes message "timed out" || strIncludes message "maxTimeMS" then
    { code := .TIMEOUT
      message := "MongoDB query timed out on \"" ++ collection.getD "unknown" ++ "\"."
      fix := "Add a filter to narrow results, add an index, or increase the timeout."
      backend := .mongo, collection := collection, operation := operation
      retryable := true }
  else
    { code := .INTERNAL_ERROR
      message := "MongoDB error on \"" ++ collection.getD "unknown" ++ "\": " ++ message
      fix := "Check the original error for details."
      backend := .mongo, collection := collection, operation := operation }

/-- A SQL driver error as `mapSqlError` reads it. -/
structure SqlDriverError where
  code : Option String := none
  message : Option String := none
  strRep : String := "[object Object]"

/-- `mapSqlError(err, collection, operation)` from `errors.ts`. -/
def mapSqlError (e : SqlDriverError) (collection operation : Option String) :
    StrictDBError :=
  let code := e.code.getD ""
  let message := e.message.getD e.strRep
  if code = "23505" || code = "ER_DUP_ENTRY"
      || strIncludes message "UNIQUE constraint failed" then
    { code := .DUPLICATE_KEY
      message := "Duplicate key violation in \"" ++ collection.getD "unknown" ++ "\"."
      fix := "A row with this value already exists. Use db.updateOne() to update instead, or check for existence with db.queryOne() first."
      backend := .sql, collection := collection, operation := operation }
  else if code = "ECONNREFUSED" || strIncludes message "ECONNREFUSED"
      || strIncludes message "connect ENOTFOUND" then
    { code := .CONNECTION_FAILED
      message := "Cannot connect to SQL database."
      fix := "Verify the DATABASE_URL is correct and the database server is running."
      backend := .sql, collection := collection, operation := operation
      retryable := true }
  else if code = "57014"
      || strIncludes message "canceling statement due to statement timeout" then
    { code := .TIMEOUT
      message := "SQL query timed out on \"" ++ collection.getD "unknown" ++ "\"."
      fix := "Add a filter to narrow results, add an index, or increase the statement timeout."
      backend := .sql, collection := collection, operation := operation
      retryable := true }
  else if code = "28P01" || code = "28000"
      || strIncludes message "password authentication failed" then
    { code := .AUTHENTICATION_FAILED
      message := "SQL authentication failed."
      fix := "Check your database username and password in the connection URI."
      backend := .sql, collection := collection, operation := operation }
  else if code = "42P01" || strIncludes message "no such table"
      || strIncludes message "does not exist" then
    { code := .COLLECTION_NOT_FOUND
      message := "Table \"" ++ collection.getD "unknown" ++ "\" not found."
      fix := "Run db.ensureCollections() to create tables from registered schemas, or check the table name."
      backend := .sql, collection := collection, operation := operation }
  else if strIncludes message "timeout exceeded" && strIncludes message "pool" then
    { code := .POOL_EXHAUSTED
      message := "SQL connection pool exhausted."
      fix := "Increase pool size with \x7b pool: 'high' \x7d or ensure connections are being released properly."
      backend := .sql, collection := collection, operation := operation
      retryable := true }
  else
    { code := .INTERNAL_ERROR
      message := "SQL error on \"" ++ collection.getD "unknown" ++ "\": " ++ message
      fix := "Check the original error for details."
      backend := .sql, collection := collection, operation := operation }

/-- An Elasticsearch client error as `mapElasticError` reads it;
`errorType` flattens `err.meta?.body?.error?.type`. -/
structure ElasticDriverError where
  statusCode : Option Int := none
  status : Option Int := none
  message : Option String := none
  errorType : Option String := none
  strRep : String := "[object Object]"

/-- `mapElasticError(err, collection, operation)` from `errors.ts`. -/
def mapElasticError (e : ElasticDriverError) (collection operation : Option String) :
    StrictDBError :=
  let statusCode := e.statusCode <|> e.status
  let message := e.message.getD e.strRep
  if statusCode = some 409 then
    { code := .DUPLICATE_KEY
      message := "Document version conflict in \"" ++ collection.getD "unknown" ++ "\"."
      fix := "The document was modified concurrently. Retry the operation or use db.queryOne() to get the latest version first."
      backend := .elastic, collection := collection, operation := operation }
  else if statusCode = some 401 || statusCode = some 403 then
    { code := .AUTHENTICATION_FAILED
      message := "Elasticsearch authentication failed (HTTP "
        ++ (statusCode.map Int.repr).getD "undefined" ++ ")."
      fix := "Check your Elasticsearch API key or credentials in the config."
      backend := .elastic, collection := collection, operation := operation }
  else if statusCode = some 404 || e.errorType = some "index_not_found_exception" then
    { code := .COLLECTION_NOT_FOUND
      message := "Index \"" ++ collection.getD "unknown" ++ "\" not found in Elasticsearch."
      fix := "Run db.ensureCollections() to create the index, or check the index name."
      backend := .elastic, collection := collection, operation := operation }
  else if strIncludes message "ConnectionError" || strIncludes message "ECONNREFUSED"
      || strIncludes message "connect ENOTFOUND" then
    { code := .CONNECTION_FAILED
      message := "Cannot connect to Elasticsearch."
      fix := "Verify the Elasticsearch URI is correct and the cluster is running. Check network access."
      backend := .elastic, collection := collection, operation := operation
      retryable := true }
  else if strIncludes message "TimeoutError" || strIncludes message "Request timed out" then
    { code := .TIMEOUT
      message := "Elasticsearch query timed out on \"" ++ collection.getD "unknown" ++ "\"."
      fix := "Add a filter to narrow results or increase the request timeout."
      backend := .elastic, collection := collection, operation := operation
      retryable := true }
  else
    { code := .INTERNAL_ERROR
      message := "Elasticsearch error on \"" ++ collection.getD "unknown" ++ "\": " ++ message
      fix := "Check the original error for details."
      backend := .elastic, collection := collection, operation := operation }

/-- **C6 counterexample.** `detectBackend` on an unsupported scheme
throws a `CONNECTION_FAILED` error without passing `retryable`, so the
constructor default leaves `retryable = false` even though
`CONNECTION_FAILED` is in the retryable set. -/
theorem C6_retryable_counterexample :
    ∃ e : StrictDBError, detectBackend "redis://localhost" = .error e ∧
      e.code = .CONNECTION_FAILED ∧
      e.retryable = false ∧
      ERROR_RETRYABLE e.code = true := by
  refine ⟨_, rfl, rfl, rfl, rfl⟩

/-- **C6 (amended).** The `ERROR_RETRYABLE` table marks exactly
\x7bCONNECTION_FAILED, CONNECTION_LOST, TIMEOUT, POOL_EXHAUSTED\x7d as
retryable, and every error produced by the three driver-error mappers
carries `retryable = ERROR_RETRYABLE code`; but the property fails at
direct construction sites that omit `retryable` with a retryable code,
such as `detectBackend`'s unsupported-scheme throw. -/
theorem C6_mapper_retryable_iff_code :
    (∀ c : StrictErrorCode, ERROR_RETRYABLE c =
      (c = .CONNECTION_FAILED ∨ c = .CONNECTION_LOST
        ∨ c = .TIMEOUT ∨ c = .POOL_EXHAUSTED : Bool)) ∧
    (∀ (e : MongoDriverError) (c o : Option String),
      (mapMongoError e c o).retryable = ERROR_RETRYABLE (mapMongoError e c o).code) ∧
    (∀ (e : SqlDriverError) (c o : Option String),
      (mapSqlError e c o).retryable = ERROR_RETRYABLE (mapSqlError e c o).code) ∧
    (∀ (e : ElasticDriverError) (c o : Option String),
      (mapElasticError e c o).retryable = ERROR_RETRYABLE (mapElasticError e c o).code) := by
  refine ⟨fun c => by cases c <;> rfl, ?_, ?_, ?_⟩
  · intro e c o
    simp only [mapMongoError]
    split_ifs <;> rfl
  · intro e c o
    simp only [mapSqlError]
    split_ifs <;> rfl
  · intro e c o
    simp only [mapElasticError]
    split_ifs <;> rfl

/-! ## Sanitize rules (`sanitize.ts`)

`applySanitizeRules` is about object identity ("returns a new object,
never mutates input"), so it is embedded over an explicit heap: a store
maps object ids to field lists, `data` is an id into the store, and JS
`\x7b ...data \x7d` is a fresh allocation. -/

abbrev Store := List (Nat × List (String × JsValue))

/-- `rule.field`: absent, `'*'`, one field name, or a list of names. -/
inductive RuleField where
  | omitted
  | star
  | single (name : String)
  | names (list : List String)

/-- A `SanitizeRule`: the `transform(value, key, collection)` callback is
modelled as a pure function. -/
structure SanitizeRule where
  field : RuleField := .omitted
  transform : JsValue → String → String → JsValue

/-- `key in result`. -/
def objHas (fields : List (String × JsValue)) (key : String) : Bool :=
  fields.any (fun e => e.1 == key)

/-- `result[key]` (callers guard with `objHas`). -/
def objGet (fields : List (String × JsValue)) (key : String) : JsValue :=
  match fields with
  | [] => .vUndef
  | e :: rest => if e.1 = key then e.2 else objGet rest key

/-- `result[key] = v`: replace in place, preserving entry order. -/
def objSet (fields : List (String × JsValue)) (key : String) (v : JsValue) :
    List (String × JsValue) :=
  match fields with
  | [] => [(key, v)]
  | e :: rest => if e.1 = key then (key, v) :: rest else e :: objSet rest key v

/-- One iteration of the `for (const rule of rules)` loop, acting on the
result object's fields.  The every-field branch visits each key once
(keys are distinct), so it is a map over the entries. -/
def applyRule (collection : String) (fields : List (String × JsValue))
    (rule : SanitizeRule) : List (String × JsValue) :=
  match rule.field with
  | .omitted | .star =>
      fields.map (fun e => (e.1, rule.transform e.2 e.1 collection))
  | .single name =>
      if objHas fields name then
        objSet fields name (rule.transform (objGet fields name) name collection)
      else fields
  | .names list =>
      list.foldl
        (fun fs n =>
          if objHas fs n then
            objSet fs n (rule.transform (objGet fs n) n collection)
          else fs)
        fields

/-- A store id unused by the store (allocation of `\x7b ...data \x7d`). -/
def freshId : Store → Nat
  | [] => 0
  | e :: rest => max (e.1 + 1) (freshId rest)

/-- The fields of object `id` (absent ids read as the empty object). -/
def storeGet (store : Store) (id : Nat) : List (String × JsValue) :=
  match store with
  | [] => []
  | e :: rest => if e.1 = id then e.2 else storeGet rest id

/-- Write object `id` into the store. -/
def storeSet (store : Store) (id : Nat) (fields : List (String × JsValue)) :
    Store :=
  match store with
  | [] => [(id, fields)]
  | e :: rest => if e.1 = id then (id, fields) :: rest else e :: storeSet rest id fields

/-- `applySanitizeRules(data, collection, rules)`: returns the (store,
result-id) pair.  Empty rules return `data` itself; otherwise the rules
fold over a freshly allocated shallow copy. -/
def applySanitizeRules (store : Store) (dataId : Nat) (collection : String)
    (rules : List SanitizeRule) : Store × Nat :=
  if rules.length = 0 then (store, dataId)
  else
    let rid := freshId store
    let result := storeGet store dataId
    let final := rules.foldl (applyRule collection) result
    (storeSet store rid final, rid)

theorem freshId_gt (store : Store) : ∀ e ∈ store, e.1 < freshId store := by
  induction store with
  | nil => intro e he; cases he
  | cons x rest ih =>
      intro e he
      rcases List.mem_cons.mp he with h | h
      · subst h
        simp only [freshId]
        omega
      · have := ih e h
        simp only [freshId]
        omega

theorem storeGet_storeSet_ne (store : Store) (rid : Nat)
    (fs : List (String × JsValue)) (id : Nat) (h : id ≠ rid) :
    storeGet (storeSet store rid fs) id = storeGet store id := by
  induction store with
  | nil =>
      simp only [storeSet, storeGet]
      rw [if_neg (by omega)]
  | cons e rest ih =>
      simp only [storeSet]
      by_cases he : e.1 = rid
      · rw [if_pos he]
        simp only [storeGet]
        rw [if_neg (by omega), if_neg (by omega)]
      · rw [if_neg he]
        simp only [storeGet]
        by_cases hid : e.1 = id
        · rw [if_pos hid, if_pos hid]
        · rw [if_neg hid, if_neg hid, ih]

/-- **C7 counterexample.** With an empty rule list,
`applySanitizeRules` short-circuits with `return data`: the result is
the very same object id (not a fresh map), refuting "returns a fresh
map ... including when the rule list is empty". -/
theorem C7_sanitize_fresh_counterexample :
    applySanitizeRules [(0, [("a", JsValue.vInt 1)])] 0 "users" []
        = ([(0, [("a", JsValue.vInt 1)])], 0) ∧
    (applySanitizeRules [(0, [("a", JsValue.vInt 1)])] 0 "users" []).2 = 0 :=
  ⟨rfl, rfl⟩

/-- **C7 (amended).** With an empty rule list `applySanitizeRules`
returns the input object itself and leaves the store untouched; with a
non-empty rule list it returns a freshly allocated object (an id no
existing object has, the input included) and every pre-existing object
— in particular the input — is unchanged in the resulting store. -/
theorem C7_sanitize_no_mutation (store : Store) (dataId : Nat)
    (collection : String) (rules : List SanitizeRule) :
    (rules = [] →
      applySanitizeRules store dataId collection rules = (store, dataId)) ∧
    (rules ≠ [] →
      (∀ e ∈ store,
        e.1 ≠ (applySanitizeRules store dataId collection rules).2) ∧
      (∀ id, id ≠ (applySanitizeRules store dataId collection rules).2 →
        storeGet (applySanitizeRules store dataId collection rules).1 id
          = storeGet store id)) := by
  constructor
  · intro h
    subst h
    simp [applySanitizeRules]
  · intro h
    have hlen : ¬rules.length = 0 := by
      simpa using h
    constructor
    · intro e he
      simp only [applySanitizeRules, if_neg hlen]
      exact Nat.ne_of_lt (freshId_gt store e he)
    · intro id hid
      simp only [applySanitizeRules, if_neg hlen] at hid ⊢
      exact storeGet_storeSet_ne store (freshId store) _ id hid

/-- Witness for C7 at a concrete store and a one-rule list (the rule
upper-cases nothing: the identity transform). -/
theorem C7_sanitize_no_mutation_witness :
    (∀ e ∈ ([(0, [("a", JsValue.vInt 1)])] : Store),
      e.1 ≠ (applySanitizeRules [(0, [("a", JsValue.vInt 1)])] 0 "users"
        [{ transform := fun v _ _ => v }]).2) ∧
    (∀ id, id ≠ (applySanitizeRules [(0, [("a", JsValue.vInt 1)])] 0 "users"
        [{ transform := fun v _ _ => v }]).2 →
      storeGet (applySanitizeRules [(0, [("a", JsValue.vInt 1)])] 0 "users"
          [{ transform := fun v _ _ => v }]).1 id
        = storeGet [(0, [("a", JsValue.vInt 1)])] id) :=
  (C7_sanitize_no_mutation [(0, [("a", JsValue.vInt 1)])] 0 "users"
      [{ transform := fun v _ _ => v }]).2
    (by simp)

/-! ## Elasticsearch filter translation (`translateToElastic`)

The emitted Query DSL is JSON, represented by `JsValue` itself.  The
`switch (op)` of `translateFieldOpsToElastic` has the same case labels
as the SQL operator switch, so `parseSqlOp` serves as its dispatch
too. -/

/-- The `UNKNOWN_OPERATOR` error thrown for a stray top-level `$`-key in
`translateToElastic` (its fix text is shorter than the SQL one's). -/
def topLevelOperatorElasticError (key : String) : StrictDBError :=
  { code := .UNKNOWN_OPERATOR
    message := "Top-level operator \"" ++ key ++ "\" is not supported in filter."
    fix := "Supported top-level operators: $and, $or, $nor. Field operators must be nested: \x7b fieldName: \x7b " ++ key ++ ": value \x7d \x7d."
    backend := .elastic }

/-- `value === null || value === undefined` (the field-level check of
`translateToElastic`). -/
def isNullish : JsValue → Bool
  | .vNull => true
  | .vUndef => true
  | _ => false

/-- `\x7b match_all: \x7b\x7d \x7d`. -/
def matchAll : JsValue := .vObj [("match_all", .vObj [])]

/-- `\x7b bool: \x7b must_not: \x7b exists: \x7b field \x7d \x7d \x7d \x7d`. -/
def mustNotExists (field : String) : JsValue :=
  .vObj [("bool", .vObj [("must_not",
    .vObj [("exists", .vObj [("field", .vStr field)])])])]

/-- `\x7b exists: \x7b field \x7d \x7d`. -/
def existsClause (field : String) : JsValue :=
  .vObj [("exists", .vObj [("field", .vStr field)])]

/-- The tail of `translateToElastic`: zero clauses → `match_all`, one →
unwrapped, several → `bool.must`. -/
def wrapMust : List JsValue → JsValue
  | [] => matchAll
  | [m] => m
  | ms => .vObj [("bool", .vObj [("must", .vArr ms)])]

/-- The entry loop of `translateToElastic` run on a string filter:
`Object.entries` of a string yields index-keyed single-character
strings, each taking the direct-equality (`term`) branch. -/
def elasticStringEntries (i : Nat) : List Char → List JsValue
  | [] => []
  | c :: cs =>
      JsValue.vObj [("term", .vObj [(toString i, .vStr (String.mk [c]))])]
        :: elasticStringEntries (i + 1) cs

/-- The `if (hasRange) clauses.push(\x7b range: ... \x7d)` epilogue of
`translateFieldOpsToElastic`, on the loop's `(clauses, rangeOps,
hasRange)` result. -/
def appendRange (field : String)
    (r : List JsValue × List (String × JsValue) × Bool) : List JsValue :=
  if r.2.2 then r.1 ++ [.vObj [("range", .vObj [(field, .vObj r.2.1)])]]
  else r.1

mutual

/-- `translateToElastic(filter)`.  Falsy or key-less filters return
`match_all`; string filters enumerate index-keyed characters (see
`elasticStringEntries`); arrays enumerate index-keyed elements. -/
def translateToElastic (filter : JsValue) : Except JsThrow JsValue :=
  if ¬ jsTruthy filter then .ok matchAll
  else
    match filter with
    | .vObj [] => .ok matchAll
    | .vObj fs => do
        let must ← elasticEntries fs
        .ok (wrapMust must)
    | .vArr [] => .ok matchAll
    | .vArr xs => do
        let must ← elasticArrEntries 0 xs
        .ok (wrapMust must)
    | .vStr s => .ok (wrapMust (elasticStringEntries 0 s.data))
    | _ => .ok matchAll
termination_by structural filter

/-- The `for (const [key, value] of Object.entries(filter))` loop of
`translateToElastic`, building the `must` array.  Unlike the SQL
translator, a non-array value under `$and`/`$or`/`$nor` is passed
straight to `.map`, a `TypeError`. -/
def elasticEntries (fs : List (String × JsValue)) :
    Except JsThrow (List JsValue) :=
  match fs with
  | [] => .ok []
  | (key, value) :: rest =>
    if key = "$and" then
      match value with
      | .vArr xs => do
          let clauses ← elasticSubfilters xs
          let ms ← elasticEntries rest
          .ok (JsValue.vObj [("bool", .vObj [("must", .vArr clauses)])] :: ms)
      | _ => .error .typeError
    else if key = "$or" then
      match value with
      | .vArr xs => do
          let clauses ← elasticSubfilters xs
          let ms ← elasticEntries rest
          .ok (JsValue.vObj [("bool", .vObj
            [("should", .vArr clauses), ("minimum_should_match", .vInt 1)])] :: ms)
      | _ => .error .typeError
    else if key = "$nor" then
      match value with
      | .vArr xs => do
          let clauses ← elasticSubfilters xs
          let ms ← elasticEntries rest
          .ok (JsValue.vObj [("bool", .vObj [("must_not", .vArr clauses)])] :: ms)
      | _ => .error .typeError
    else if startsWithDollar key then
      .error (.strict (topLevelOperatorElasticError key))
    else if isNullish value then do
      let ms ← elasticEntries rest
      .ok (mustNotExists key :: ms)
    else
      match value with
      | .vObj ops => do
          let r ← elasticFieldOps key ops [] false
          let ms ← elasticEntries rest
          .ok (appendRange key r ++ ms)
      | _ => do
          let ms ← elasticEntries rest
          .ok (JsValue.vObj [("term", .vObj [(key, value)])] :: ms)
termination_by structural fs

/-- The same entry loop on an array filter: index keys are never `$`
keys, so only the field-level branches are reachable. -/
def elasticArrEntries (i : Nat) (xs : List JsValue) :
    Except JsThrow (List JsValue) :=
  match xs with
  | [] => .ok []
  | value :: rest =>
    let key := toString i
    if isNullish value then do
      let ms ← elasticArrEntries (i + 1) rest
      .ok (mustNotExists key :: ms)
    else
      match value with
      | .vObj ops => do
          let r ← elasticFieldOps key ops [] false
          let ms ← elasticArrEntries (i + 1) rest
          .ok (appendRange key r ++ ms)
      | _ => do
          let ms ← elasticArrEntries (i + 1) rest
          .ok (JsValue.vObj [("term", .vObj [(key, value)])] :: ms)
termination_by structural xs

/-- `filters.map(f => translateToElastic(f))`. -/
def elasticSubfilters (xs : List JsValue) : Except JsThrow (List JsValue) :=
  match xs with
  | [] => .ok []
  | x :: rest => do
      let c ← translateToElastic x
      let cs ← elasticSubfilters rest
      .ok (c :: cs)
termination_by structural xs

/-- The operator loop of `translateFieldOpsToElastic`, threading the
`rangeOps` object and `hasRange` flag; range operators assign into
`rangeOps` (`objSet`) and emit no clause of their own, `$options` is
skipped, and `$not` recurses through `Object.entries(value)` (entries
of a non-empty array or string are index-keyed, so the first
sub-operator key `"0"` hits the unknown-operator branch; entries of
numbers, dates, booleans and regexes are empty; `null`/`undefined`
throw a `TypeError`). -/
def elasticFieldOps (field : String) (ops : List (String × JsValue))
    (rangeOps : List (String × JsValue)) (hasRange : Bool) :
    Except JsThrow (List JsValue × List (String × JsValue) × Bool) :=
  match ops with
  | [] => .ok ([], rangeOps, hasRange)
  | (op, value) :: rest =>
    match parseSqlOp op with
    | .opEq => do
        let clause := match value with
          | .vNull => mustNotExists field
          | _ => JsValue.vObj [("term", .vObj [(field, value)])]
        let (cs, ro, hr) ← elasticFieldOps field rest rangeOps hasRange
        .ok (clause :: cs, ro, hr)
    | .opNe => do
        let clause := match value with
          | .vNull => existsClause field
          | _ => JsValue.vObj [("bool", .vObj [("must_not",
              .vObj [("term", .vObj [(field, value)])])])]
        let (cs, ro, hr) ← elasticFieldOps field rest rangeOps hasRange
        .ok (clause :: cs, ro, hr)
    | .opGt => elasticFieldOps field rest (objSet rangeOps "gt" value) true
    | .opGte => elasticFieldOps field rest (objSet rangeOps "gte" value) true
    | .opLt => elasticFieldOps field rest (objSet rangeOps "lt" value) true
    | .opLte => elasticFieldOps field rest (objSet rangeOps "lte" value) true
    | .opIn => do
        let (cs, ro, hr) ← elasticFieldOps field rest rangeOps hasRange
        .ok (JsValue.vObj [("terms", .vObj [(field, value)])] :: cs, ro, hr)
    | .opNin => do
        let (cs, ro, hr) ← elasticFieldOps field rest rangeOps hasRange
        .ok (JsValue.vObj [("bool", .vObj [("must_not",
          .vObj [("terms", .vObj [(field, value)])])])] :: cs, ro, hr)
    | .opExists => do
        let clause := if jsTruthy value then existsClause field
          else mustNotExists field
        let (cs, ro, hr) ← elasticFieldOps field rest rangeOps hasRange
        .ok (clause :: cs, ro, hr)
    | .opRegex => do
        let pattern := match value with
          | .vRegExp src => src
          | v => jsToString v
        let (cs, ro, hr) ← elasticFieldOps field rest rangeOps hasRange
        .ok (JsValue.vObj [("regexp", .vObj [(field, .vStr pattern)])] :: cs, ro, hr)
    | .opOptions => elasticFieldOps field rest rangeOps hasRange
    | .opNot => do
        let subClauses ← elasticNotValue field value
        let (cs, ro, hr) ← elasticFieldOps field rest rangeOps hasRange
        .ok (JsValue.vObj [("bool", .vObj [("must_not",
          .vArr subClauses)])] :: cs, ro, hr)
    | .opSize => do
        let (cs, ro, hr) ← elasticFieldOps field rest rangeOps hasRange
        .ok (JsValue.vObj [("script", .vObj [("script", .vObj
          [("source", .vStr ("doc['" ++ field ++ "'].size() == params.size")),
           ("params", .vObj [("size", value)])])])] :: cs, ro, hr)
    | .opUnknown => .error (.strict (unknownFilterOperatorError op .elastic))
termination_by structural ops

/-- The `$not` case of the operator switch: `translateFieldOpsToElastic`
re-run on `Object.entries(value)` (see the `elasticFieldOps` doc comment
for the entries of each value shape). -/
def elasticNotValue (field : String) (value : JsValue) :
    Except JsThrow (List JsValue) :=
  match value with
  | .vObj sub => do
      let rsub ← elasticFieldOps field sub [] false
      .ok (appendRange field rsub)
  | .vNull => .error .typeError
  | .vUndef => .error .typeError
  | .vArr [] => .ok []
  | .vArr (_ :: _) => .error (.strict (unknownFilterOperatorError "0" .elastic))
  | .vStr s =>
      if s = "" then .ok []
      else .error (.strict (unknownFilterOperatorError "0" .elastic))
  | _ => .ok []
termination_by structural value

end

/-- `translateFieldOpsToElastic(field, ops)`: the loop followed by the
range epilogue. -/
def translateFieldOpsToElastic (field : String) (ops : List (String × JsValue)) :
    Except JsThrow (List JsValue) := do
  let r ← elasticFieldOps field ops [] false
  .ok (appendRange field r)

/-- **C8.** `translateToElastic` maps `$or` to `bool.should` with
`minimum_should_match: 1`, and a filter whose entry loop produces a
single top-level clause returns that clause unwrapped (no enclosing
`bool.must`): in particular the `$or` example returns exactly the
`should` clause. -/
theorem C8_elastic_or_unwrapped (fs : List (String × JsValue)) (m : JsValue)
    (hne : fs ≠ []) (h : elasticEntries fs = .ok [m]) :
    translateToElastic (.vObj fs) = .ok m ∧
    translateToElastic (.vObj [("$or", .vArr
        [.vObj [("role", .vStr "admin")], .vObj [("role", .vStr "mod")]])])
      = .ok (.vObj [("bool", .vObj [
          ("should", .vArr [
            .vObj [("term", .vObj [("role", .vStr "admin")])],
            .vObj [("term", .vObj [("role", .vStr "mod")])]]),
          ("minimum_should_match", .vInt 1)])]) := by
  constructor
  · match fs, hne with
    | (k, v) :: rest, _ =>
        have hdef : translateToElastic (.vObj ((k, v) :: rest))
            = (do
                let must ← elasticEntries ((k, v) :: rest)
                .ok (wrapMust must)) := rfl
        rw [hdef, h]
        rfl
  · rfl

/-- Witness for C8 at the `$or` example itself (its entry loop produces
exactly one clause). -/
theorem C8_elastic_or_unwrapped_witness :
    translateToElastic (.vObj [("$or", .vArr
        [.vObj [("role", .vStr "admin")], .vObj [("role", .vStr "mod")]])])
      = .ok (.vObj [("bool", .vObj [
          ("should", .vArr [
            .vObj [("term", .vObj [("role", .vStr "admin")])],
            .vObj [("term", .vObj [("role", .vStr "mod")])]]),
          ("minimum_should_match", .vInt 1)])]) :=
  (C8_elastic_or_unwrapped
    [("$or", .vArr [.vObj [("role", .vStr "admin")], .vObj [("role", .vStr "mod")]])]
    (.vObj [("bool", .vObj [
      ("should", .vArr [
        .vObj [("term", .vObj [("role", .vStr "admin")])],
        .vObj [("term", .vObj [("role", .vStr "mod")])]]),
      ("minimum_should_match", .vInt 1)])])
    (by simp) rfl).1

/-- **C9.** A `$regex` bag carrying `$options`: neither translator
raises `UNKNOWN_OPERATOR`, and the Elasticsearch output elides
`$options` exactly; but the SQL bag loop pushes the operator's empty
clause into `parts` unconditionally, so the joined SQL clause gains a
trailing `" AND "` and is *not* identical to the clause without
`$options` — malformed SQL. -/
theorem C9_options_sql_trailing_and :
    translateToSQL (.vObj [("name", .vObj
        [("$regex", .vStr "^a"), ("$options", .vStr "i")])]) .pg 1
      = .ok { clause := "\"name\" ~ $1 AND ", values := [.vStr "^a"] } ∧
    translateToSQL (.vObj [("name", .vObj [("$regex", .vStr "^a")])]) .pg 1
      = .ok { clause := "\"name\" ~ $1", values := [.vStr "^a"] } ∧
    translateToElastic (.vObj [("name", .vObj
        [("$regex", .vStr "^a"), ("$options", .vStr "i")])])
      = translateToElastic (.vObj [("name", .vObj [("$regex", .vStr "^a")])]) :=
  ⟨rfl, rfl, rfl⟩

/-- **C2.** For every filter whose entry loop yields a non-empty parts
list, `translateToSQL` is exactly those parts joined with `" AND "` in
entry order; on the example, multiple top-level fields and multiple
operators in one bag each contribute one part, giving the clause
`"age" >= $1 AND "age" < $2 AND "role" = $3` with values
`[18, 65, 'admin']`. -/
theorem C2_and_join_entry_order (fs : List (String × JsValue))
    (d : SqlDialect) (i : Nat) (ps : List String) (vs : List JsValue)
    (hne : fs ≠ []) (hps : ps ≠ []) (h : translateEntries fs d i = .ok (ps, vs)) :
    translateToSQL (.vObj fs) d i
        = .ok { clause := joinSep " AND " ps, values := vs } ∧
    translateToSQL (.vObj [("age", .vObj [("$gte", .vInt 18), ("$lt", .vInt 65)]),
        ("role", .vStr "admin")]) .pg 1
      = .ok { clause := "\"age\" >= $1 AND \"age\" < $2 AND \"role\" = $3"
              values := [.vInt 18, .vInt 65, .vStr "admin"] } := by
  constructor
  · match fs, hne with
    | (k, v) :: rest, _ =>
        have hdef : translateToSQL (.vObj ((k, v) :: rest)) d i
            = (do
                let pv ← translateEntries ((k, v) :: rest) d i
                .ok (joinParts pv)) := rfl
        rw [hdef, h]
        simp [exbind_ok, joinParts, hps]
  · rfl

/-- Witness for C2: the theorem applied at the example filter itself,
with its computed parts list. -/
theorem C2_and_join_entry_order_witness :
    translateToSQL (.vObj [("age", .vObj [("$gte", .vInt 18), ("$lt", .vInt 65)]),
        ("role", .vStr "admin")]) .pg 1
      = .ok { clause := joinSep " AND "
                ["\"age\" >= $1", "\"age\" < $2", "\"role\" = $3"]
              values := [.vInt 18, .vInt 65, .vStr "admin"] } :=
  (C2_and_join_entry_order
    [("age", .vObj [("$gte", .vInt 18), ("$lt", .vInt 65)]), ("role", .vStr "admin")]
    .pg 1 ["\"age\" >= $1", "\"age\" < $2", "\"role\" = $3"]
    [.vInt 18, .vInt 65, .vStr "admin"]
    (by simp) (by simp) rfl).1

/-! ## Full SELECT builders (`buildSelectSQL`, `buildMssqlSelectSQL`) -/

/-- `translateSortToSQL(sort)`: `dir === -1 || dir === 'desc'` sorts
descending, anything else ascending. -/
def translateSortToSQL (sort : List (String × JsValue)) : String :=
  let parts := sort.map fun e =>
    let direction := match e.2 with
      | .vInt i => if i = -1 then "DESC" else "ASC"
      | .vStr s => if s = "desc" then "DESC" else "ASC"
      | _ => "ASC"
    quoteIdentifier e.1 ++ " " ++ direction
  if parts.length > 0 then joinSep ", " parts else ""

/-- `translateProjectionToSQL(projection)`. -/
def translateProjectionToSQL (projection : List (String × Nat)) : String :=
  let included := projection.filter fun e => e.2 == 1
  let excluded := projection.filter fun e => e.2 == 0
  if included.length > 0 then
    joinSep ", " (included.map fun e => quoteIdentifier e.1)
  else if excluded.length > 0 then "*"
  else "*"

/-- The options object of `buildSelectSQL`. -/
structure SelectOptions where
  sort : Option (List (String × JsValue)) := none
  limit : Option Int := none
  skip : Option Int := none
  projection : Option (List (String × Nat)) := none
  dialect : Option SqlDialect := none

structure FullSqlQuery where
  sql : String
  values : List JsValue
deriving Repr

/-- `options.projection ? translateProjectionToSQL(...) : '*'`. -/
def selectColumns (options : SelectOptions) : String :=
  match options.projection with
  | some p => translateProjectionToSQL p
  | none => "*"

/-- `buildMssqlSelectSQL(table, filter, options)`: `hasSkip` requires
`skip !== undefined && skip > 0`, so `skip: 0` paginates like an absent
skip. -/
def buildMssqlSelectSQL (table : String) (filter : JsValue)
    (options : SelectOptions) : Except JsThrow FullSqlQuery := do
  let columns := selectColumns options
  let w ← translateToSQL filter .mssql 1
  let hasSkip := match options.skip with
    | some k => decide (k > 0)
    | none => false
  if hasSkip then
    let sql := "SELECT " ++ columns ++ " FROM " ++ quoteIdentifier table
    let sql := if w.clause ≠ "1=1" then sql ++ " WHERE " ++ w.clause else sql
    let sql := match options.sort with
      | some s =>
          let orderBy := translateSortToSQL s
          if orderBy ≠ "" then sql ++ " ORDER BY " ++ orderBy else sql
      | none => sql ++ " ORDER BY (SELECT NULL)"
    let sql := sql ++ " OFFSET " ++ toString (options.skip.getD 0) ++ " ROWS"
    let sql := if options.limit.isSome then
        sql ++ " FETCH NEXT " ++ toString (options.limit.getD 0) ++ " ROWS ONLY"
      else sql
    .ok { sql := sql, values := w.values }
  else if options.limit.isSome then
    let sql := "SELECT TOP(" ++ toString (options.limit.getD 0) ++ ") " ++ columns
      ++ " FROM " ++ quoteIdentifier table
    let sql := if w.clause ≠ "1=1" then sql ++ " WHERE " ++ w.clause else sql
    let sql := match options.sort with
      | some s =>
          let orderBy := translateSortToSQL s
          if orderBy ≠ "" then sql ++ " ORDER BY " ++ orderBy else sql
      | none => sql
    .ok { sql := sql, values := w.values }
  else
    let sql := "SELECT " ++ columns ++ " FROM " ++ quoteIdentifier table
    let sql := if w.clause ≠ "1=1" then sql ++ " WHERE " ++ w.clause else sql
    let sql := match options.sort with
      | some s =>
          let orderBy := translateSortToSQL s
          if orderBy ≠ "" then sql ++ " ORDER BY " ++ orderBy else sql
      | none => sql
    .ok { sql := sql, values := w.values }

/-- `buildSelectSQL(table, filter, options)`: MSSQL delegates to
`buildMssqlSelectSQL`; other dialects append `LIMIT` / `OFFSET`. -/
def buildSelectSQL (table : String) (filter : JsValue)
    (options : SelectOptions) : Except JsThrow FullSqlQuery :=
  let dialect := options.dialect.getD .pg
  if dialect = .mssql then buildMssqlSelectSQL table filter options
  else do
    let columns := selectColumns options
    let w ← translateToSQL filter dialect 1
    let sql := "SELECT " ++ columns ++ " FROM " ++ quoteIdentifier table
    let sql := if w.clause ≠ "1=1" then sql ++ " WHERE " ++ w.clause else sql
    let sql := match options.sort with
      | some s =>
          let orderBy := translateSortToSQL s
          if orderBy ≠ "" then sql ++ " ORDER BY " ++ orderBy else sql
      | none => sql
    let sql := match options.limit with
      | some n => sql ++ " LIMIT " ++ toString n
      | none => sql
    let sql := match options.skip with
      | some n => sql ++ " OFFSET " ++ toString n
      | none => sql
    .ok { sql := sql, values := w.values }

/-- The `WHERE` fragment of the composed SELECT ("WHERE iff
non-trivial"). -/
def whereFragment (w : SqlTranslation) : String :=
  if w.clause ≠ "1=1" then " WHERE " ++ w.clause else ""

/-- The `ORDER BY` fragment ("ORDER BY iff sort"). -/
def sortFragment (options : SelectOptions) : String :=
  match options.sort with
  | some s => if translateSortToSQL s ≠ "" then " ORDER BY " ++ translateSortToSQL s else ""
  | none => ""

/-- The `ORDER BY` fragment of the MSSQL OFFSET rows: "if no sort,
append `ORDER BY (SELECT NULL)`". -/
def mssqlOrderFragment (options : SelectOptions) : String :=
  match options.sort with
  | some s => if translateSortToSQL s ≠ "" then " ORDER BY " ++ translateSortToSQL s else ""
  | none => " ORDER BY (SELECT NULL)"

/-- **C4.** MSSQL pagination follows the decision table on
(skip, limit): positive skip yields `OFFSET k ROWS` (with `FETCH NEXT n
ROWS ONLY` iff a limit is present, and `ORDER BY (SELECT NULL)` iff no
sort), zero/absent skip with a limit yields `SELECT TOP(n)`, and
neither yields a plain SELECT — and the worked example composes to
exactly `SELECT * FROM "users" ORDER BY (SELECT NULL) OFFSET 20 ROWS
FETCH NEXT 10 ROWS ONLY`. -/
theorem C4_mssql_pagination (table : String) (filter : JsValue)
    (options : SelectOptions) (w : SqlTranslation) (k n : Int)
    (hd : options.dialect = some SqlDialect.mssql)
    (hw : translateToSQL filter .mssql 1 = .ok w) :
    (buildSelectSQL "users" (.vObj [])
        { skip := some 20, limit := some 10, dialect := some .mssql }
      = .ok { sql := "SELECT * FROM \"users\" ORDER BY (SELECT NULL) OFFSET 20 ROWS FETCH NEXT 10 ROWS ONLY"
              values := [] }) ∧
    (options.skip = some k → k > 0 → options.limit = some n →
      buildSelectSQL table filter options
        = .ok { sql := "SELECT " ++ selectColumns options ++ " FROM "
                  ++ quoteIdentifier table ++ whereFragment w
                  ++ mssqlOrderFragment options
                  ++ " OFFSET " ++ toString k ++ " ROWS FETCH NEXT "
                  ++ toString n ++ " ROWS ONLY"
                values := w.values }) ∧
    (options.skip = some k → k > 0 → options.limit = none →
      buildSelectSQL table filter options
        = .ok { sql := "SELECT " ++ selectColumns options ++ " FROM "
                  ++ quoteIdentifier table ++ whereFragment w
                  ++ mssqlOrderFragment options
                  ++ " OFFSET " ++ toString k ++ " ROWS"
                values := w.values }) ∧
    ((options.skip = none ∨ (options.skip = some k ∧ k ≤ 0)) →
      options.limit = some n →
      buildSelectSQL table filter options
        = .ok { sql := "SELECT TOP(" ++ toString n ++ ") "
                  ++ selectColumns options ++ " FROM " ++ quoteIdentifier table
                  ++ whereFragment w ++ sortFragment options
                values := w.values }) ∧
    ((options.skip = none ∨ (options.skip = some k ∧ k ≤ 0)) →
      options.limit = none →
      buildSelectSQL table filter options
        = .ok { sql := "SELECT " ++ selectColumns options ++ " FROM "
                  ++ quoteIdentifier table ++ whereFragment w
                  ++ sortFragment options
                values := w.values }) := by
  have hms : buildSelectSQL table filter options
      = buildMssqlSelectSQL table filter options := by
    simp [buildSelectSQL, hd]
  refine ⟨rfl, ?_, ?_, ?_, ?_⟩
  · intro hs hk hl
    rw [hms]
    simp only [buildMssqlSelectSQL, hw, exbind_ok, hs, hl]
    rw [if_pos (by simpa using hk)]
    simp only [whereFragment, mssqlOrderFragment, selectColumns,
      Option.getD_some, Option.isSome_some, if_true]
    by_cases hc : w.clause = "1=1" <;>
      rcases options.sort with _ | s <;>
        simp [hc, String.append_assoc, String.append_empty] <;>
          by_cases hob : translateSortToSQL s = "" <;>
            simp [hob, String.append_assoc, String.append_empty]
  · intro hs hk hl
    rw [hms]
    simp only [buildMssqlSelectSQL, hw, exbind_ok, hs, hl]
    rw [if_pos (by simpa using hk)]
    simp only [whereFragment, mssqlOrderFragment, selectColumns,
      Option.getD_some, Option.isSome_none, if_false]
    by_cases hc : w.clause = "1=1" <;>
      rcases options.sort with _ | s <;>
        simp [hc, String.append_assoc, String.append_empty] <;>
          by_cases hob : translateSortToSQL s = "" <;>
            simp [hob, String.append_assoc, String.append_empty]
  · intro hs hl
    rw [hms]
    simp only [buildMssqlSelectSQL, hw, exbind_ok, hl]
    rw [if_neg (by rcases hs with h | ⟨h, hk0⟩ <;> simp [h] <;> omega)]
    simp only [whereFragment, sortFragment, selectColumns,
      Option.getD_some, Option.isSome_some, if_true]
    by_cases hc : w.clause = "1=1" <;>
      rcases options.sort with _ | s <;>
        simp [hc, String.append_assoc, String.append_empty] <;>
          by_cases hob : translateSortToSQL s = "" <;>
            simp [hob, String.append_assoc, String.append_empty]
  · intro hs hl
    rw [hms]
    simp only [buildMssqlSelectSQL, hw, exbind_ok, hl]
    rw [if_neg (by rcases hs with h | ⟨h, hk0⟩ <;> simp [h] <;> omega)]
    simp only [whereFragment, sortFragment, selectColumns,
      Option.isSome_none, if_false]
    by_cases hc : w.clause = "1=1" <;>
      rcases options.sort with _ | s <;>
        simp [hc, String.append_assoc, String.append_empty] <;>
          by_cases hob : translateSortToSQL s = "" <;>
            simp [hob, String.append_assoc, String.append_empty]

/-- Witness for C4: the theorem applied at the worked example. -/
theorem C4_mssql_pagination_witness :
    buildSelectSQL "users" (.vObj [])
        { skip := some 20, limit := some 10, dialect := some .mssql }
      = .ok { sql := "SELECT " ++ selectColumns
                  { skip := some 20, limit := some 10, dialect := some .mssql }
                ++ " FROM " ++ quoteIdentifier "users"
                ++ whereFragment { clause := "1=1", values := [] }
                ++ mssqlOrderFragment
                  { skip := some 20, limit := some 10, dialect := some .mssql }
                ++ " OFFSET " ++ toString (20 : Int) ++ " ROWS FETCH NEXT "
                ++ toString (10 : Int) ++ " ROWS ONLY"
              values := [] } :=
  (C4_mssql_pagination "users" (.vObj [])
      { skip := some 20, limit := some 10, dialect := some .mssql }
      { clause := "1=1", values := [] } 20 10 rfl rfl).2.1
    rfl (by decide) rfl

end StrictDB
